import Mathlib

/-!
# Configuration lifecycle of `config.js`

A shallow embedding of `src/config.js` (validator, migrator, storage
reconciliation) together with the properties its specification states.

## Data model

JavaScript values are embedded as the inductive type `JSValue`.

* Numbers are only inspected through `typeof` and truthiness by the program, so
  a finite number is represented by an integer and `NaN` by its own constructor.
* An object is the list of its own enumerable string-keyed fields in insertion
  order.  A key that occurs twice in such a list is read at its first binding;
  every operation below respects that reading, so every list denotes an object.
* An array is the list of its elements; besides `length` it carries no named
  property.
* Prototypes are not part of the model: an object is taken to inherit from
  `Object.prototype`, as object literals and parsed JSON do, and only own fields
  are recorded.  A write with `[[Set]]` to the key `__proto__` therefore
  creates no own field (`assignField`), while `CreateDataProperty` does.
* Structural equality of two `JSValue`s implies that the JavaScript values are
  deep-equal.
-/

namespace UBOConfig

/-- JavaScript values that the configuration code manipulates. -/
inductive JSValue where
  | undefined : JSValue
  | null : JSValue
  | boolean (b : Bool) : JSValue
  | num (n : Int) : JSValue
  | nan : JSValue
  | str (s : String) : JSValue
  | arr (items : List JSValue) : JSValue
  | obj (fields : List (String × JSValue)) : JSValue
  deriving Inhabited

/-- The own fields of an object, in insertion order. -/
abbrev Fields := List (String × JSValue)

/-- Exceptions the embedded code can raise. -/
inductive JSError where
  | typeError : JSError
  | syntaxError : JSError
  | storageError : JSError
  deriving DecidableEq, Repr, Inhabited

open JSValue

/-- The `typeof` operator. -/
def typeOf : JSValue → String
  | undefined => "undefined"
  | null => "object"
  | boolean _ => "boolean"
  | num _ => "number"
  | nan => "number"
  | str _ => "string"
  | arr _ => "object"
  | obj _ => "object"

/-- The abstract operation `ToBoolean` (truthiness). -/
def toBoolean : JSValue → Bool
  | undefined => false
  | null => false
  | boolean b => b
  | num n => n != 0
  | nan => false
  | str s => s != ""
  | arr _ => true
  | obj _ => true

/-- Strict comparison with `null`: `v === null`. -/
def isNull : JSValue → Bool
  | null => true
  | _ => false

/-- The test `Array.isArray(v)`. -/
def isArray : JSValue → Bool
  | arr _ => true
  | _ => false

/-- First binding of a key in a field list. -/
def lookupField (k : String) : Fields → Option JSValue
  | [] => none
  | (k', v) :: rest => if k' = k then some v else lookupField k rest

/-- Keys of a field list, in order. -/
def fieldKeys (fs : Fields) : List String := fs.map Prod.fst

/-- Writing a field: an existing key keeps its position, a new key is appended. -/
def setField : Fields → String → JSValue → Fields
  | [], k, v => [(k, v)]
  | (k', v') :: rest, k, v =>
    if k' = k then (k', v) :: rest else (k', v') :: setField rest k v

/-- The fields of an object with repeated keys removed, the first binding of a
key being the one that is kept. -/
def dedupKeys : Fields → Fields
  | [] => []
  | (k, v) :: rest => (k, v) :: (dedupKeys rest).filter (fun p => p.1 ≠ k)

/-- Property read `v.k` (for a key other than an array index): raises a
`TypeError` on `undefined` and `null`, yields `undefined` for a missing
property. -/
def getProp (v : JSValue) (k : String) : Except JSError JSValue :=
  match v with
  | undefined => .error .typeError
  | null => .error .typeError
  | obj fs => .ok ((lookupField k fs).getD undefined)
  | arr xs => .ok (if k = "length" then num xs.length else undefined)
  | str s => .ok (if k = "length" then num s.length else undefined)
  | _ => .ok undefined

/-- Property write `target.k = v` in strict mode: a `TypeError` on anything
that is not an object.  Arrays are never written to by the program. -/
def setProp (target : JSValue) (k : String) (v : JSValue) : Except JSError JSValue :=
  match target with
  | obj fs => .ok (obj (setField fs k v))
  | _ => .error .typeError

/-- Own enumerable string-keyed properties of a value as seen by object spread
and `Object.assign`: the fields of an object, the indexed elements of an array,
the indexed characters of a string, nothing for any other value. -/
def ownEntries : JSValue → Fields
  | obj fs => dedupKeys fs
  | arr xs => xs.enum.map (fun p => (toString p.1, p.2))
  | str s => s.toList.enum.map (fun p => (toString p.1, str (String.singleton p.2)))
  | _ => []

/-- The abstract operation `CopyDataProperties`: every own property of `source`
is written onto `target`, in order. -/
def copyDataProperties (target : Fields) (source : JSValue) : Fields :=
  (ownEntries source).foldl (fun acc p => setField acc p.1 p.2) target

/-- The write `target[k] = v` as `Object.assign` performs it (`[[Set]]`, not
`CreateDataProperty`).  It differs from `setField` at the key `__proto__`: on a
target without an own field of that name the write reaches the accessor
inherited from `Object.prototype`, which replaces the prototype of the target
or does nothing, and the target gains no own field.  The target is taken to
inherit from `Object.prototype`, as an object literal does; its prototype is
not part of the model. -/
def assignField (fs : Fields) (k : String) (v : JSValue) : Fields :=
  if k = "__proto__" ∧ (lookupField k fs).isNone then fs else setField fs k v

/-- The call `Object.assign(target, source)`: every own property of `source` is
written onto `target` with `[[Set]]`, in order. -/
def objectAssign (target : Fields) (source : JSValue) : Fields :=
  (ownEntries source).foldl (fun acc p => assignField acc p.1 p.2) target

mutual
/-- What `JSON.parse(JSON.stringify(v))` yields for a value nested inside a
structure; `none` when `JSON.stringify` has no text for the value. -/
def jsonValue? : JSValue → Option JSValue
  | undefined => none
  | null => some null
  | boolean b => some (boolean b)
  | num n => some (num n)
  | nan => some null
  | str s => some (str s)
  | arr xs => some (arr (jsonItems xs))
  | obj fs => some (obj (jsonFields fs))
/-- JSON round trip of array elements: a value without text becomes `null`. -/
def jsonItems : List JSValue → List JSValue
  | [] => []
  | x :: xs => (jsonValue? x).getD null :: jsonItems xs
/-- JSON round trip of object fields: a field without text is omitted. -/
def jsonFields : List (String × JSValue) → List (String × JSValue)
  | [] => []
  | (k, v) :: rest =>
    match jsonValue? v with
    | some w => (k, w) :: (jsonFields rest).filter (fun p => p.1 ≠ k)
    | none => (jsonFields rest).filter (fun p => p.1 ≠ k)
end

/-- The deep clone `JSON.parse(JSON.stringify(v))`; `JSON.parse` raises a
`SyntaxError` when `JSON.stringify` yields `undefined`. -/
def jsonClone (v : JSValue) : Except JSError JSValue :=
  match jsonValue? v with
  | some w => .ok w
  | none => .error .syntaxError

/-- Strict comparison of a value with a string literal: `v === s`. -/
def strictEqString (v : JSValue) (s : String) : Bool :=
  match v with
  | str t => t == s
  | _ => false

/-- The constant `CURRENT_CONFIG_VERSION`. -/
def CURRENT_CONFIG_VERSION : String := "26"

/-- The object literal that initialises the exported `rulesetConfig`.  The
imported `webextFlavor` is a parameter: it only selects `strictBlockMode`. -/
def rulesetConfig (webextFlavor : JSValue) : JSValue :=
  obj [
    ("version", str CURRENT_CONFIG_VERSION),
    ("enabledRulesets", arr [str "default"]),
    ("autoReload", boolean true),
    ("showBlockedCount", boolean true),
    ("enabled", boolean true),
    ("strictBlockMode", boolean (!strictEqString webextFlavor "XXX")),
    ("developerMode", boolean true),
    ("hasBroadHostPermissions", boolean true),
    ("features", obj [
      ("youtubeFadeSkip", obj [
        ("enabled", boolean true),
        ("fadeThreshold", num 10),
        ("minDurationMs", num 300),
        ("debounceMs", num 1),
        ("maxSkipPerVideo", num 1000)])]),
    ("siteOverrides", obj [
      ("www.youtube.com", obj [
        ("youtubeFadeSkip", obj [
          ("enabled", boolean true),
          ("fadeThreshold", num 300),
          ("minDurationMs", num 600),
          ("throttleMs", num 0),
          ("MidrollAdSkip", boolean true),
          ("showAdsOnVideos", boolean false),
          ("PremiumClientSharedConfig__enable_att_context_processor", boolean true),
          ("PremiumClientSharedConfig__enable_att_for_get_download_action_on_web_client",
            boolean true),
          ("PremiumClientSharedConfig__enable_att_for_get_premium_on_web_client",
            boolean true),
          ("ab_det_apb_b", boolean false),
          ("ab_det_el_h", boolean false),
          ("ab_det_pp_ov", boolean false),
          ("ab_det_ubo_a", boolean false),
          ("L1_DRM", boolean false),
          ("L3_DRM", boolean false),
          ("AdDetection", boolean false),
          ("ABtesting", boolean false)])])])]

/-- The exported `defaultConfig`: the deep clone of the `rulesetConfig` literal
taken when the module is evaluated.  The clone of an object cannot fail. -/
def defaultConfig (webextFlavor : JSValue) : JSValue :=
  match jsonClone (rulesetConfig webextFlavor) with
  | .ok v => v
  | .error _ => undefined

/-- The function `validateConfig` of `config.js`. -/
def validateConfig (candidate : JSValue) : Except JSError Bool := do
  if typeOf candidate ≠ "object" || isNull candidate then return false
  if typeOf (← getProp candidate "version") ≠ "string" then return false
  if !isArray (← getProp candidate "enabledRulesets") then return false
  if typeOf (← getProp candidate "autoReload") ≠ "boolean" then return false
  if typeOf (← getProp candidate "showBlockedCount") ≠ "boolean" then return false
  if !toBoolean (← getProp candidate "features")
      || typeOf (← getProp candidate "features") ≠ "object" then
    return false
  let yf ← getProp (← getProp candidate "features") "youtubeFadeSkip"
  if !toBoolean yf || typeOf yf ≠ "object" then return false
  if typeOf (← getProp yf "enabled") ≠ "boolean" then return false
  if typeOf (← getProp yf "fadeThreshold") ≠ "number" then return false
  if typeOf (← getProp yf "minDurationMs") ≠ "number" then return false
  if typeOf (← getProp yf "debounceMs") ≠ "number" then return false
  return true

/-- The value `from` of `migrateConfig`: the version of `oldConfig` when
`oldConfig` is truthy and carries a string version, else `'0'`. -/
def migrateFrom (oldConfig : JSValue) : Except JSError String := do
  if toBoolean oldConfig then
    match ← getProp oldConfig "version" with
    | str version => return version
    | _ => return "0"
  else
    return "0"

/-- The double negation `!!v`. -/
def notNot (v : JSValue) : JSValue := boolean (toBoolean v)

/-- The expression `a || b`. -/
def orElse (a b : JSValue) : JSValue := if toBoolean a then a else b

/-- The function `migrateConfig` of `config.js`. -/
def migrateConfig (webextFlavor : JSValue) (oldConfig : JSValue) :
    Except JSError JSValue := do
  let «from» ← migrateFrom oldConfig
  let cfg ← jsonClone (defaultConfig webextFlavor)
  let cfg ←
    if «from» = "0" then
      pure cfg
    else if «from» = "1" then do
      let cfg ← setProp cfg "enabledRulesets"
        (orElse (← getProp oldConfig "enabledRulesets") (arr []))
      let cfg ← setProp cfg "autoReload" (notNot (← getProp oldConfig "autoReload"))
      let cfg ← setProp cfg "showBlockedCount"
        (notNot (← getProp oldConfig "showBlockedCount"))
      let cfg ← setProp cfg "strictBlockMode"
        (notNot (← getProp oldConfig "strictBlockMode"))
      let cfg ← setProp cfg "developerMode" (notNot (← getProp oldConfig "developerMode"))
      setProp cfg "hasBroadHostPermissions"
        (notNot (← getProp oldConfig "hasBroadHostPermissions"))
    else if «from» = CURRENT_CONFIG_VERSION then
      pure (obj (copyDataProperties (copyDataProperties [] cfg) oldConfig))
    else
      setProp cfg "enabledRulesets"
        (orElse (← getProp oldConfig "enabledRulesets") (arr []))
  setProp cfg "version" (str CURRENT_CONFIG_VERSION)

/-- Total property read used to state properties: `undefined` where the
property is missing or the value has no properties. -/
def field (v : JSValue) (k : String) : JSValue :=
  match getProp v k with
  | .ok w => w
  | .error _ => undefined

/-- A non-null object (arrays included, as for `typeof`). -/
def isObjectValue : JSValue → Bool
  | arr _ => true
  | obj _ => true
  | _ => false

/-- A string value. -/
def isStringValue : JSValue → Bool
  | str _ => true
  | _ => false

/-- A boolean value. -/
def isBooleanValue : JSValue → Bool
  | boolean _ => true
  | _ => false

/-- A number value. -/
def isNumberValue : JSValue → Bool
  | num _ => true
  | nan => true
  | _ => false

/-- The schema check as the specification words it: the candidate is a non-null
object, `version` is a string, `enabledRulesets` is a sequence, `autoReload`
and `showBlockedCount` are booleans, `features` is a non-null object, and
`features.youtubeFadeSkip` is a non-null object whose `enabled` is a boolean
and whose `fadeThreshold`, `minDurationMs` and `debounceMs` are numbers. -/
def specValid (candidate : JSValue) : Bool :=
  isObjectValue candidate
  && isStringValue (field candidate "version")
  && isArray (field candidate "enabledRulesets")
  && isBooleanValue (field candidate "autoReload")
  && isBooleanValue (field candidate "showBlockedCount")
  && isObjectValue (field candidate "features")
  && isObjectValue (field (field candidate "features") "youtubeFadeSkip")
  && isBooleanValue (field (field (field candidate "features") "youtubeFadeSkip") "enabled")
  && isNumberValue
      (field (field (field candidate "features") "youtubeFadeSkip") "fadeThreshold")
  && isNumberValue
      (field (field (field candidate "features") "youtubeFadeSkip") "minDurationMs")
  && isNumberValue
      (field (field (field candidate "features") "youtubeFadeSkip") "debounceMs")

/-- The fields of an object value; no fields for any other value. -/
def objectFields : JSValue → Fields
  | obj fs => fs
  | _ => []

/-- The top-level fields of the default configuration. -/
def defaultFields (webextFlavor : JSValue) : Fields :=
  objectFields (defaultConfig webextFlavor)

/-- The part of the schema that concerns `features`: a non-null object whose
`youtubeFadeSkip` is a non-null object with a boolean `enabled` and numeric
`fadeThreshold`, `minDurationMs` and `debounceMs`. -/
def featuresValid (features : JSValue) : Bool :=
  isObjectValue features
  && isObjectValue (field features "youtubeFadeSkip")
  && isBooleanValue (field (field features "youtubeFadeSkip") "enabled")
  && isNumberValue (field (field features "youtubeFadeSkip") "fadeThreshold")
  && isNumberValue (field (field features "youtubeFadeSkip") "minDurationMs")
  && isNumberValue (field (field features "youtubeFadeSkip") "debounceMs")

/-- The input has no own field `k`, or its own field `k` satisfies `p`. -/
def absentOr (p : JSValue → Bool) (oldConfig : JSValue) (k : String) : Bool :=
  match lookupField k (objectFields oldConfig) with
  | none => true
  | some v => p v

/-- The inputs whose migration passes `validateConfig`, as the amended claim on
the validity of migrated configurations words them: an input without a string
version or of version `'0'`; an input of version `'26'` in which each of
`enabledRulesets`, `autoReload`, `showBlockedCount` and `features` is absent or
of the kind the schema requires; an input of any other version whose
`enabledRulesets` is falsy or an array. -/
def migratesToValid (oldConfig : JSValue) : Bool :=
  match field oldConfig "version" with
  | str version =>
    if version = "0" then true
    else if version = "26" then
      absentOr isArray oldConfig "enabledRulesets"
      && absentOr isBooleanValue oldConfig "autoReload"
      && absentOr isBooleanValue oldConfig "showBlockedCount"
      && absentOr featuresValid oldConfig "features"
    else
      !toBoolean (field oldConfig "enabledRulesets")
      || isArray (field oldConfig "enabledRulesets")
  | _ => true

/-- Modelled from the spec: one tier of the dual-tier store adapter (`ext.js`,
not part of the sources).  A tier is an asynchronous key-value namespace: a
read resolves to the stored value or to the absent signal `undefined`, or fails
with a storage error; a write stores the value under the key or fails with a
storage error, leaving the tier as it was.  Whether the tier's reads and writes
fail is part of the tier. -/
structure Tier where
  entries : Fields
  readFails : Bool
  writeFails : Bool

/-- Modelled from the spec: read-by-key of a tier (`sessionRead`, `localRead`). -/
def Tier.read (t : Tier) (key : String) : Except JSError JSValue :=
  if t.readFails then .error .storageError
  else .ok ((lookupField key t.entries).getD undefined)

/-- Modelled from the spec: write-by-key of a tier (`sessionWrite`,
`localWrite`): the outcome of the returned promise and the tier afterwards. -/
def Tier.write (t : Tier) (key : String) (value : JSValue) : Except JSError Unit × Tier :=
  if t.writeFails then (.error .storageError, t)
  else (.ok (), { t with entries := setField t.entries key value })

/-- The mutable state of the module: the exported in-memory instance
`rulesetConfig` (a constant binding to an object, hence its fields), the
exported `process` flags object, and the two storage tiers. -/
structure State where
  rulesetConfig : Fields
  process : Fields
  sessionTier : Tier
  localTier : Tier

/-- The state right after the module is evaluated, for given tiers. -/
def initialState (webextFlavor : JSValue) (sessionTier localTier : Tier) : State :=
  { rulesetConfig := objectFields (rulesetConfig webextFlavor)
    process := [("firstRun", boolean true), ("wakeupRun", boolean true)]
    sessionTier := sessionTier
    localTier := localTier }

/-- The condition `data && validateConfig(data)`: the validator only runs on a
truthy value. -/
def presentAndValid (data : JSValue) : Except JSError Bool :=
  if toBoolean data then validateConfig data else pure false

/-- The function `readConfigFromStorage` of `config.js`. -/
def readConfigFromStorage (s : State) : Except JSError JSValue := do
  let sessionData ← s.sessionTier.read "rulesetConfig"
  if ← presentAndValid sessionData then return sessionData
  let localData ← s.localTier.read "rulesetConfig"
  if ← presentAndValid localData then return localData
  return null

/-- The `catch` block of `loadRulesetConfig`. -/
def loadCatch (s : State) : State :=
  let s := { s with process := setField s.process "firstRun" (boolean true) }
  let s := { s with process := setField s.process "wakeupRun" (boolean true) }
  { s with process := setField s.process "developerMode" (boolean true) }

/-- The two writes that end both branches of `loadRulesetConfig`; the promises
they return are not awaited. -/
def writeBothTiers (s : State) : State :=
  let s := { s with sessionTier := (s.sessionTier.write "rulesetConfig" (obj s.rulesetConfig)).2 }
  { s with localTier := (s.localTier.write "rulesetConfig" (obj s.rulesetConfig)).2 }

/-- The function `loadRulesetConfig` of `config.js`.  Every statement that can
raise comes before the first assignment, so the `try` block is the two matches
and the `catch` block runs on the state the call started from. -/
def loadRulesetConfig (webextFlavor : JSValue) (s : State) : State :=
  match readConfigFromStorage s with
  | .error _ => loadCatch s
  | .ok stored =>
    if toBoolean stored then
      match migrateConfig webextFlavor stored with
      | .error _ => loadCatch s
      | .ok migrated =>
        let s := { s with rulesetConfig := objectAssign s.rulesetConfig migrated }
        let s := { s with process := setField s.process "firstRun" (boolean false) }
        let s := { s with process := setField s.process "wakeupRun" (boolean true) }
        writeBothTiers s
    else
      let s := { s with process := setField s.process "firstRun" (boolean true) }
      let s := { s with process := setField s.process "wakeupRun" (boolean false) }
      writeBothTiers s

/-- The `if` block that opens `saveRulesetConfig`: an instance that fails
`validateConfig` has a deep clone of `defaultConfig` assigned over it. -/
def resetIfInvalid (webextFlavor : JSValue) (s : State) : Except JSError State := do
  if !(← validateConfig (obj s.rulesetConfig)) then
    let defaults ← jsonClone (defaultConfig webextFlavor)
    pure { s with rulesetConfig := objectAssign s.rulesetConfig defaults }
  else
    pure s

/-- The function `internalSave` of `config.js`: the session write is requested
and not awaited, the promise of the local write is what is returned. -/
def internalSave (s : State) : Except JSError Unit × State :=
  let s := { s with sessionTier := (s.sessionTier.write "rulesetConfig" (obj s.rulesetConfig)).2 }
  let localWrite := s.localTier.write "rulesetConfig" (obj s.rulesetConfig)
  (localWrite.1, { s with localTier := localWrite.2 })

/-- The function `saveRulesetConfig` of `config.js`, called while no save is in
flight (`saveInFlight` is `null`) and run until the promise it returns settles:
the outcome of that promise and the state afterwards.  The `catch` block logs
whatever the `try` block raised, so the promise is fulfilled either way. -/
def saveRulesetConfig (webextFlavor : JSValue) (s : State) : Except JSError Unit × State :=
  match resetIfInvalid webextFlavor s with
  | .error _ => (.ok (), s)
  | .ok s =>
    match internalSave s with
    | (.ok _, s) => (.ok (), s)
    | (.error _, s) => (.ok (), s)

/-! ### Saves that overlap

`saveRulesetConfig` is an `async` function: a call runs up to `await
saveInFlight`, and the rest of it runs when the awaited promise settles.  The
definitions below make the suspension points explicit.  Promises are numbered by
the call of `saveRulesetConfig` that created them; a run of `internalSave`
carries the number of the call it belongs to. -/

/-- The two storage tiers. -/
inductive TierName where
  | sessionTier : TierName
  | localTier : TierName
  deriving DecidableEq, Repr

/-- A write that was handed to the store adapter and has not settled yet: the
run of `internalSave` that requested it, the tier, and the value handed over. -/
structure WriteInFlight where
  run : Nat
  tier : TierName
  value : JSValue

/-- A call whose `internalSave` is the callback of
`saveInFlight.then(() => internalSave())`: `call` is the promise the call
stored in `saveInFlight`, `after` the promise it is chained on. -/
structure ChainedSave where
  call : Nat
  after : Nat

/-- The module while saves are pending: the module state, the variable
`saveInFlight` (`none` for `null`), the number of calls so far, the callbacks
that wait for an earlier promise, the writes in flight, and for every call
that has completed the outcome of the promise its caller holds. -/
structure SaveSystem where
  state : State
  saveInFlight : Option Nat
  calls : Nat
  chained : List ChainedSave
  inFlight : List WriteInFlight
  returned : List (Nat × Except JSError Unit)

/-- What can happen next: a call of `saveRulesetConfig()`, an assignment to a
field of the exported instance by the code that owns a setting, or a write in
flight settling. -/
inductive SaveEvent where
  | save : SaveEvent
  | assign (k : String) (v : JSValue) : SaveEvent
  | sessionWriteSettles (run : Nat) : SaveEvent
  | localWriteSettles (run : Nat) : SaveEvent

/-- No save pending. -/
def SaveSystem.idle (s : State) : SaveSystem :=
  { state := s, saveInFlight := none, calls := 0, chained := [], inFlight := [],
    returned := [] }

/-- The `catch` block of `saveRulesetConfig`: the error is logged, nothing is
thrown again, and the call completes with `undefined`. -/
def saveCatch (_err : JSError) : Except JSError Unit := .ok ()

/-- The rest of a call of `saveRulesetConfig` once the promise it awaits has
settled, as its caller sees it: the value of a fulfilled promise is returned,
a rejection is handed to the `catch` block. -/
def resumeAfterAwait (awaited : Except JSError Unit) : Except JSError Unit :=
  match awaited with
  | .ok v => .ok v
  | .error err => saveCatch err

/-- A run of `internalSave`: both writes are handed to the adapter with the
instance as it is now. -/
def startInternalSave (run : Nat) (sys : SaveSystem) : SaveSystem :=
  { sys with
    inFlight := sys.inFlight ++
      [{ run := run, tier := .sessionTier, value := obj sys.state.rulesetConfig },
       { run := run, tier := .localTier, value := obj sys.state.rulesetConfig }] }

/-- Promise `p` settles with `outcome`.  The call that awaits it resumes: its
caller's promise settles as `resumeAfterAwait` says and its `finally` block
sets `saveInFlight` to `null`.  A callback chained on `p` runs `internalSave`
if `p` is fulfilled; if `p` is rejected the callback is skipped and its own
promise is rejected with the same error.  The first argument bounds the length
of a chain of rejections. -/
def settlePromise : Nat → Except JSError Unit → Nat → SaveSystem → SaveSystem
  | 0, _, _, sys => sys
  | fuel + 1, outcome, p, sys =>
    let callbacks := sys.chained.filter (fun c => c.after = p)
    let sys := { sys with
      saveInFlight := none
      chained := sys.chained.filter (fun c => c.after ≠ p)
      returned := sys.returned ++ [(p, resumeAfterAwait outcome)] }
    match outcome with
    | .ok _ => callbacks.foldl (fun acc c => startInternalSave c.call acc) sys
    | .error err =>
      callbacks.foldl (fun acc c => settlePromise fuel (.error err) c.call acc) sys

/-- One event.  `none` when the event cannot happen: no such write is in
flight. -/
def SaveSystem.step (webextFlavor : JSValue) (sys : SaveSystem) :
    SaveEvent → Option SaveSystem
  | .save =>
    match resetIfInvalid webextFlavor sys.state with
    | .error err =>
      some { sys with
        saveInFlight := none
        calls := sys.calls + 1
        returned := sys.returned ++ [(sys.calls, saveCatch err)] }
    | .ok state =>
      match sys.saveInFlight with
      | some p =>
        some { sys with
          state := state
          saveInFlight := some sys.calls
          calls := sys.calls + 1
          chained := sys.chained ++ [{ call := sys.calls, after := p }] }
      | none =>
        some (startInternalSave sys.calls
          { sys with state := state, saveInFlight := some sys.calls, calls := sys.calls + 1 })
  | .assign k v =>
    some { sys with
      state := { sys.state with rulesetConfig := setField sys.state.rulesetConfig k v } }
  | .sessionWriteSettles run =>
    match sys.inFlight.find? (fun wr => wr.run = run ∧ wr.tier = .sessionTier) with
    | none => none
    | some wr =>
      some { sys with
        state := { sys.state with
          sessionTier := (sys.state.sessionTier.write "rulesetConfig" wr.value).2 }
        inFlight := sys.inFlight.filter (fun x => ¬ (x.run = run ∧ x.tier = .sessionTier)) }
  | .localWriteSettles run =>
    match sys.inFlight.find? (fun wr => wr.run = run ∧ wr.tier = .localTier) with
    | none => none
    | some wr =>
      let outcome := sys.state.localTier.write "rulesetConfig" wr.value
      some (settlePromise (sys.chained.length + 1) outcome.1 run
        { sys with
          state := { sys.state with localTier := outcome.2 }
          inFlight := sys.inFlight.filter (fun x => ¬ (x.run = run ∧ x.tier = .localTier)) })

/-- A sequence of events, in order. -/
def SaveSystem.run (webextFlavor : JSValue) : SaveSystem → List SaveEvent → Option SaveSystem
  | sys, [] => some sys
  | sys, e :: es =>
    match sys.step webextFlavor e with
    | none => none
    | some next => SaveSystem.run webextFlavor next es

/-- The runs of `internalSave` that have a write in flight, with the tier. -/
def SaveSystem.writesInFlight (sys : SaveSystem) : List (Nat × TierName) :=
  sys.inFlight.map (fun wr => (wr.run, wr.tier))

/-- A tier that holds nothing and whose operations succeed. -/
def emptyTier : Tier := { entries := [], readFails := false, writeFails := false }

/-- A working tier that holds `value` under the key `'rulesetConfig'`. -/
def tierHolding (value : JSValue) : Tier :=
  { entries := [("rulesetConfig", value)], readFails := false, writeFails := false }

/-- What a tier holds under the key `'rulesetConfig'`, if anything. -/
def Tier.stored (t : Tier) : Option JSValue := lookupField "rulesetConfig" t.entries

/-- A current-version configuration that passes `validateConfig` and leaves
out several default fields: used to exercise the statements below. -/
def sampleCurrentConfig : JSValue :=
  obj [
    ("version", str "26"),
    ("enabledRulesets", arr [str "annoyances"]),
    ("autoReload", boolean false),
    ("showBlockedCount", boolean true),
    ("features", obj [
      ("youtubeFadeSkip", obj [
        ("enabled", boolean false),
        ("fadeThreshold", num 5),
        ("minDurationMs", num 100),
        ("debounceMs", num 2)])]),
    ("theme", str "dark")]

/-- A legacy (version `'1'`) configuration that passes `validateConfig`. -/
def sampleLegacyConfig : JSValue :=
  obj [
    ("version", str "1"),
    ("enabledRulesets", arr [str "annoyances"]),
    ("autoReload", boolean false),
    ("showBlockedCount", boolean true),
    ("developerMode", num 0),
    ("features", obj [
      ("youtubeFadeSkip", obj [
        ("enabled", boolean false),
        ("fadeThreshold", num 5),
        ("minDurationMs", num 100),
        ("debounceMs", num 2)])])]

/-- A state whose session tier holds a valid current-version configuration and
whose local tier holds a valid legacy one. -/
def sampleState : State :=
  initialState (str "chromium") (tierHolding sampleCurrentConfig) (tierHolding sampleLegacyConfig)

/-- A state with both tiers empty whose in-memory instance no longer equals the
default configuration: `enabled` has been switched off. -/
def mutatedState : State :=
  { initialState (str "chromium") emptyTier emptyTier with
    rulesetConfig := setField (defaultFields (str "chromium")) "enabled" (boolean false) }

/-- A state whose session tier raises on every read. -/
def brokenSessionState : State :=
  initialState (str "chromium")
    { entries := [], readFails := true, writeFails := false } (tierHolding sampleLegacyConfig)

/-- A state with working, empty tiers whose in-memory instance fails
`validateConfig` (`autoReload` is a string) and carries a field that the
default configuration does not have. -/
def corruptedState : State :=
  { initialState (str "chromium") emptyTier emptyTier with
    rulesetConfig := setField (setField (defaultFields (str "chromium"))
      "autoReload" (str "yes")) "leftover" (str "stale") }

/-- A state whose in-memory instance carries a field that no migrated
configuration has, and whose local tier holds a valid legacy configuration. -/
def staleFieldState : State :=
  { initialState (str "chromium") emptyTier (tierHolding sampleLegacyConfig) with
    rulesetConfig := setField (defaultFields (str "chromium")) "leftover" (str "stale") }

/-- A state whose session tier holds a valid configuration and whose local tier
raises on every read. -/
def brokenLocalState : State :=
  initialState (str "chromium") (tierHolding sampleCurrentConfig)
    { entries := [], readFails := true, writeFails := false }

/-- A state whose in-memory instance fails `validateConfig` and whose local
tier rejects every write. -/
def failingWriteState : State :=
  { corruptedState with
    localTier := { entries := [], readFails := false, writeFails := true } }

/-! ## Elementary facts about values -/

theorem getProp_of_isObjectValue {v : JSValue} (h : isObjectValue v = true) (k : String) :
    getProp v k = .ok (field v k) := by
  cases v <;> simp_all [isObjectValue, getProp, field]

theorem typeOf_ne_object_iff (v : JSValue) :
    (typeOf v ≠ "object" ∨ isNull v = true) ↔ isObjectValue v = false := by
  cases v <;> simp [typeOf, isNull, isObjectValue]

theorem falsy_or_not_object_iff (v : JSValue) :
    (toBoolean v = false ∨ typeOf v ≠ "object") ↔ isObjectValue v = false := by
  cases v <;> simp [typeOf, toBoolean, isObjectValue]

theorem typeOf_eq_string_iff (v : JSValue) : typeOf v = "string" ↔ isStringValue v = true := by
  cases v <;> simp [typeOf, isStringValue]

theorem typeOf_eq_boolean_iff (v : JSValue) :
    typeOf v = "boolean" ↔ isBooleanValue v = true := by
  cases v <;> simp [typeOf, isBooleanValue]

theorem typeOf_eq_number_iff (v : JSValue) : typeOf v = "number" ↔ isNumberValue v = true := by
  cases v <;> simp [typeOf, isNumberValue]

theorem except_ok_bind {ε α β : Type} (a : α) (f : α → Except ε β) :
    (Except.ok a >>= f) = f a := rfl

theorem except_pure_eq {ε α : Type} (a : α) : (pure a : Except ε α) = Except.ok a := rfl

theorem validateConfig_eq_specValid (candidate : JSValue) :
    validateConfig candidate = .ok (specValid candidate) := by
  unfold validateConfig specValid
  simp only [bne_iff_ne, Bool.or_eq_true, decide_eq_true_eq, Bool.not_eq_true', ne_eq,
    ite_not, typeOf_ne_object_iff, falsy_or_not_object_iff, typeOf_eq_string_iff,
    typeOf_eq_boolean_iff, typeOf_eq_number_iff, except_pure_eq]
  cases h0 : isObjectValue candidate
  · simp
  simp only [getProp_of_isObjectValue h0, except_ok_bind, falsy_or_not_object_iff,
    typeOf_eq_string_iff, typeOf_eq_boolean_iff, typeOf_eq_number_iff]
  cases h1 : isStringValue (field candidate "version") <;> simp
  cases h2 : isArray (field candidate "enabledRulesets") <;> simp
  cases h3 : isBooleanValue (field candidate "autoReload") <;> simp
  cases h4 : isBooleanValue (field candidate "showBlockedCount") <;> simp
  cases h5 : isObjectValue (field candidate "features") <;> simp
  simp only [getProp_of_isObjectValue h5, except_ok_bind, falsy_or_not_object_iff]
  cases h6 : isObjectValue (field (field candidate "features") "youtubeFadeSkip") <;> simp
  simp only [getProp_of_isObjectValue h6, except_ok_bind, typeOf_eq_boolean_iff,
    typeOf_eq_number_iff]
  cases h7 : isBooleanValue
    (field (field (field candidate "features") "youtubeFadeSkip") "enabled") <;> simp
  cases h8 : isNumberValue
    (field (field (field candidate "features") "youtubeFadeSkip") "fadeThreshold") <;> simp
  cases h9 : isNumberValue
    (field (field (field candidate "features") "youtubeFadeSkip") "minDurationMs") <;> simp
  cases h10 : isNumberValue
    (field (field (field candidate "features") "youtubeFadeSkip") "debounceMs") <;> simp

/-! ## Field lists -/

theorem lookupField_setField (fs : Fields) (k k' : String) (v : JSValue) :
    lookupField k (setField fs k' v) = if k' = k then some v else lookupField k fs := by
  induction fs with
  | nil => simp [setField, lookupField]
  | cons p rest ih =>
    obtain ⟨k0, v0⟩ := p
    by_cases h0 : k0 = k'
    · subst h0
      by_cases h1 : k0 = k <;> simp [setField, lookupField, h1]
    · by_cases h1 : k0 = k
      · subst h1
        simp [setField, lookupField, h0, Ne.symm h0]
      · simp [setField, lookupField, h0, h1, ih]

theorem lookupField_eq_none_iff (fs : Fields) (k : String) :
    lookupField k fs = none ↔ k ∉ fieldKeys fs := by
  induction fs with
  | nil => simp [lookupField, fieldKeys]
  | cons p rest ih =>
    obtain ⟨k0, v0⟩ := p
    by_cases h : k0 = k
    · simp [lookupField, fieldKeys, h]
    · simp only [fieldKeys] at ih
      simp [lookupField, fieldKeys, h, ih, Ne.symm h]

theorem setField_of_lookupField {fs : Fields} {k : String} {v : JSValue}
    (h : lookupField k fs = some v) : setField fs k v = fs := by
  induction fs with
  | nil => simp [lookupField] at h
  | cons p rest ih =>
    obtain ⟨k0, v0⟩ := p
    by_cases h0 : k0 = k
    · simp [lookupField, h0] at h
      simp [setField, h0, h]
    · simp [lookupField, h0] at h
      simp [setField, h0, ih h]

theorem setField_append_of_not_mem {a : Fields} {k : String} (h : k ∉ fieldKeys a)
    (b : Fields) (v : JSValue) : setField (a ++ b) k v = a ++ setField b k v := by
  induction a with
  | nil => rfl
  | cons p rest ih =>
    obtain ⟨k0, v0⟩ := p
    simp only [fieldKeys, List.map_cons, List.mem_cons, not_or] at h
    have h0 : ¬ k0 = k := fun e => h.1 e.symm
    have ih' := ih (by simpa [fieldKeys] using h.2)
    simp only [List.cons_append, setField, h0, if_false]
    exact congrArg _ ih'

theorem fieldKeys_setField (fs : Fields) (k : String) (v : JSValue) :
    fieldKeys (setField fs k v) = fieldKeys fs ++ (if k ∈ fieldKeys fs then [] else [k]) := by
  induction fs with
  | nil => simp [setField, fieldKeys]
  | cons p rest ih =>
    obtain ⟨k0, v0⟩ := p
    by_cases h0 : k0 = k
    · simp [setField, fieldKeys, h0]
    · simp only [fieldKeys] at ih
      simp only [setField, h0, if_false, fieldKeys, List.map_cons, ih, List.mem_cons,
        Ne.symm h0, false_or, List.cons_append]

theorem nodup_fieldKeys_setField {fs : Fields} (h : (fieldKeys fs).Nodup) (k : String)
    (v : JSValue) : (fieldKeys (setField fs k v)).Nodup := by
  rw [fieldKeys_setField]
  by_cases hk : k ∈ fieldKeys fs
  · simpa [hk] using h
  · simp only [hk, if_false]
    exact List.Nodup.append h (List.nodup_singleton k) (by simpa using hk)

theorem prefix_fieldKeys_setField (fs : Fields) (k : String) (v : JSValue) :
    fieldKeys fs <+: fieldKeys (setField fs k v) := by
  rw [fieldKeys_setField]
  exact List.prefix_append _ _

/-- Writing a list of fields one after the other, as `CopyDataProperties` does. -/
theorem foldl_setField_keys (es t : Fields) :
    ((fieldKeys t).Nodup → (fieldKeys (es.foldl (fun acc p => setField acc p.1 p.2) t)).Nodup)
    ∧ fieldKeys t <+: fieldKeys (es.foldl (fun acc p => setField acc p.1 p.2) t) := by
  induction es generalizing t with
  | nil => exact ⟨id, List.prefix_refl _⟩
  | cons p rest ih =>
    simp only [List.foldl_cons]
    refine ⟨fun h => (ih _).1 (nodup_fieldKeys_setField h _ _), ?_⟩
    exact (prefix_fieldKeys_setField t p.1 p.2).trans (ih _).2

theorem lookupField_foldl_setField (es : Fields) (hes : (fieldKeys es).Nodup) (t : Fields)
    (k : String) :
    lookupField k (es.foldl (fun acc p => setField acc p.1 p.2) t)
      = (lookupField k es).orElse (fun _ => lookupField k t) := by
  induction es generalizing t with
  | nil => simp [lookupField]
  | cons p rest ih =>
    obtain ⟨k0, v0⟩ := p
    simp only [fieldKeys, List.map_cons, List.nodup_cons] at hes
    simp only [List.foldl_cons]
    rw [ih (by simpa [fieldKeys] using hes.2), lookupField_setField]
    by_cases h0 : k0 = k
    · subst h0
      have : lookupField k0 rest = none :=
        (lookupField_eq_none_iff rest k0).2 (by simpa [fieldKeys] using hes.1)
      simp [lookupField, this]
    · simp [lookupField, h0]

theorem foldl_setField_self (todo done t : Fields)
    (hnd : (fieldKeys (done ++ todo)).Nodup) (hpre : fieldKeys t <+: fieldKeys todo) :
    todo.foldl (fun acc p => setField acc p.1 p.2) (done ++ t) = done ++ todo := by
  induction todo generalizing done t with
  | nil =>
    have : t = [] := by simpa [fieldKeys] using hpre
    simp [this]
  | cons p rest ih =>
    obtain ⟨k, v⟩ := p
    have hk : k ∉ fieldKeys done := by
      simp only [fieldKeys, List.map_append, List.map_cons] at hnd
      have := (List.nodup_append.1 hnd).2.2
      intro hmem
      exact this (by simpa [fieldKeys] using hmem) (List.mem_cons_self _ _)
    have hnd' : (fieldKeys ((done ++ [(k, v)]) ++ rest)).Nodup := by
      simpa [fieldKeys] using hnd
    simp only [List.foldl_cons]
    cases t with
    | nil =>
      rw [setField_append_of_not_mem hk]
      have := ih (done ++ [(k, v)]) [] hnd' (by simp [fieldKeys])
      simpa [setField] using this
    | cons q t' =>
      obtain ⟨k2, v2⟩ := q
      simp only [fieldKeys, List.map_cons, List.cons_prefix_cons] at hpre
      obtain ⟨hk2, hpre'⟩ := hpre
      subst hk2
      have hset : setField (done ++ (k2, v2) :: t') k2 v = (done ++ [(k2, v)]) ++ t' := by
        rw [setField_append_of_not_mem hk]
        simp [setField]
      rw [hset]
      have := ih (done ++ [(k2, v)]) t' hnd' (by simpa [fieldKeys] using hpre')
      simpa using this

theorem lookupField_filter_ne (fs : Fields) (k k' : String) :
    lookupField k (fs.filter (fun p => p.1 ≠ k'))
      = if k = k' then none else lookupField k fs := by
  induction fs with
  | nil => simp [lookupField]
  | cons p rest ih =>
    obtain ⟨k0, v0⟩ := p
    by_cases h0 : k0 = k'
    · subst h0
      rw [List.filter_cons_of_neg (by simp), ih]
      by_cases h1 : k = k0
      · simp [h1]
      · simp [h1, lookupField, Ne.symm h1]
    · rw [List.filter_cons_of_pos (by simpa using h0)]
      by_cases h1 : k0 = k
      · subst h1
        simp [h0, lookupField]
      · simp only [lookupField, h1, if_false, ih]

theorem lookupField_dedupKeys (fs : Fields) (k : String) :
    lookupField k (dedupKeys fs) = lookupField k fs := by
  induction fs with
  | nil => rfl
  | cons p rest ih =>
    obtain ⟨k0, v0⟩ := p
    by_cases h0 : k0 = k
    · simp [dedupKeys, lookupField, h0]
    · simp only [dedupKeys, lookupField, h0, if_false]
      rw [lookupField_filter_ne, ih, if_neg (Ne.symm h0)]

theorem nodup_fieldKeys_dedupKeys (fs : Fields) : (fieldKeys (dedupKeys fs)).Nodup := by
  induction fs with
  | nil => simp [dedupKeys, fieldKeys]
  | cons p rest ih =>
    obtain ⟨k0, v0⟩ := p
    simp only [dedupKeys, fieldKeys, List.map_cons, List.nodup_cons]
    constructor
    · simp [List.mem_map, List.mem_filter]
    · exact (List.Nodup.sublist (List.Sublist.map _ (List.filter_sublist _)) ih)

theorem dedupKeys_of_nodup {fs : Fields} (h : (fieldKeys fs).Nodup) : dedupKeys fs = fs := by
  induction fs with
  | nil => rfl
  | cons p rest ih =>
    obtain ⟨k0, v0⟩ := p
    simp only [fieldKeys, List.map_cons, List.nodup_cons] at h
    simp only [dedupKeys, ih (by simpa [fieldKeys] using h.2), List.cons.injEq, true_and]
    rw [List.filter_eq_self]
    intro q hq
    have : q.1 ≠ k0 := fun e => h.1 (e ▸ List.mem_map_of_mem Prod.fst hq)
    simpa using this

/-! ## `CopyDataProperties` from an object -/

theorem lookupField_copyDataProperties (t s : Fields) (k : String) :
    lookupField k (copyDataProperties t (obj s))
      = (lookupField k s).orElse (fun _ => lookupField k t) := by
  simp only [copyDataProperties, ownEntries]
  rw [lookupField_foldl_setField _ (nodup_fieldKeys_dedupKeys s), lookupField_dedupKeys]

theorem copyDataProperties_self {t s : Fields} (hs : (fieldKeys s).Nodup)
    (hpre : fieldKeys t <+: fieldKeys s) : copyDataProperties t (obj s) = s := by
  simp only [copyDataProperties, ownEntries, dedupKeys_of_nodup hs]
  simpa using foldl_setField_self s [] t (by simpa using hs) hpre

theorem copyDataProperties_keys (t : Fields) (source : JSValue) :
    ((fieldKeys t).Nodup → (fieldKeys (copyDataProperties t source)).Nodup)
    ∧ fieldKeys t <+: fieldKeys (copyDataProperties t source) :=
  foldl_setField_keys _ t

/-! ## `Object.assign` from an object -/

theorem lookupField_assignField (fs : Fields) (k k' : String) (v : JSValue) :
    lookupField k (assignField fs k' v)
      = if k' = "__proto__" ∧ (lookupField k' fs).isNone then lookupField k fs
        else if k' = k then some v else lookupField k fs := by
  unfold assignField
  by_cases h : k' = "__proto__" ∧ (lookupField k' fs).isNone = true
  · rw [if_pos h, if_pos h]
  · rw [if_neg h, if_neg h, lookupField_setField]

theorem lookupField_foldl_assignField (es : Fields) (hes : (fieldKeys es).Nodup) (t : Fields)
    (k : String) :
    lookupField k (es.foldl (fun acc p => assignField acc p.1 p.2) t)
      = if k = "__proto__" ∧ (lookupField k t).isNone then none
        else (lookupField k es).orElse (fun _ => lookupField k t) := by
  induction es generalizing t with
  | nil =>
    by_cases h : k = "__proto__" ∧ (lookupField k t).isNone = true
    · rw [if_pos h]
      simpa [Option.isNone_iff_eq_none] using h.2
    · rw [if_neg h]
      simp [lookupField]
  | cons p rest ih =>
    obtain ⟨k0, v0⟩ := p
    simp only [fieldKeys, List.map_cons, List.nodup_cons] at hes
    have hrest : lookupField k0 rest = none :=
      (lookupField_eq_none_iff rest k0).2 (by simpa [fieldKeys] using hes.1)
    simp only [List.foldl_cons]
    rw [ih (by simpa [fieldKeys] using hes.2), lookupField_assignField]
    by_cases hA : k0 = "__proto__" ∧ (lookupField k0 t).isNone = true
    · rw [if_pos hA]
      by_cases hk : k = "__proto__"
      · subst hk
        obtain ⟨rfl, hnone⟩ := hA
        simp [hnone]
      · have hne : ¬ k0 = k := fun e => hk (e ▸ hA.1)
        simp [hk, lookupField, hne]
    · rw [if_neg hA]
      by_cases h0 : k0 = k
      · subst h0
        have hcond : ¬ (k0 = "__proto__" ∧ (lookupField k0 t).isNone = true) := hA
        rw [if_pos rfl, if_neg (by simp), if_neg hcond]
        simp [lookupField, hrest]
      · rw [if_neg h0]
        simp only [lookupField, h0, if_false]

theorem lookupField_objectAssign (t s : Fields) (k : String) :
    lookupField k (objectAssign t (obj s))
      = if k = "__proto__" ∧ (lookupField k t).isNone then none
        else (lookupField k s).orElse (fun _ => lookupField k t) := by
  simp only [objectAssign, ownEntries]
  rw [lookupField_foldl_assignField _ (nodup_fieldKeys_dedupKeys s), lookupField_dedupKeys]

theorem dedupKeys_subset (fs : Fields) : ∀ p ∈ dedupKeys fs, p ∈ fs := by
  induction fs with
  | nil => simp [dedupKeys]
  | cons q rest ih =>
    obtain ⟨k0, v0⟩ := q
    intro p hp
    simp only [dedupKeys, List.mem_cons] at hp ⊢
    rcases hp with rfl | hp
    · exact Or.inl rfl
    · exact Or.inr (ih p (List.mem_filter.1 hp).1)

theorem foldl_assignField_eq_setField (es : Fields) (h : ∀ p ∈ es, p.1 ≠ "__proto__")
    (t : Fields) :
    es.foldl (fun acc p => assignField acc p.1 p.2) t
      = es.foldl (fun acc p => setField acc p.1 p.2) t := by
  induction es generalizing t with
  | nil => rfl
  | cons p rest ih =>
    have hp : p.1 ≠ "__proto__" := h p (List.mem_cons_self _ _)
    simp only [List.foldl_cons]
    rw [ih (fun q hq => h q (List.mem_cons_of_mem _ hq))]
    simp [assignField, hp]

/-- Without a source field named `__proto__`, `Object.assign` writes what
`CopyDataProperties` writes. -/
theorem objectAssign_eq_copyDataProperties {s : Fields} (h : "__proto__" ∉ fieldKeys s)
    (t : Fields) : objectAssign t (obj s) = copyDataProperties t (obj s) := by
  simp only [objectAssign, copyDataProperties, ownEntries]
  apply foldl_assignField_eq_setField
  intro p hp hk
  exact h (hk ▸ List.mem_map_of_mem Prod.fst (dedupKeys_subset s p hp))

/-! ## The default configuration -/

theorem defaultConfig_eq (w : JSValue) : defaultConfig w = rulesetConfig w := rfl

theorem jsonClone_defaultConfig (w : JSValue) :
    jsonClone (defaultConfig w) = .ok (defaultConfig w) := rfl

theorem defaultConfig_obj (w : JSValue) : defaultConfig w = obj (defaultFields w) := rfl

theorem fieldKeys_defaultFields (w : JSValue) :
    fieldKeys (defaultFields w)
      = ["version", "enabledRulesets", "autoReload", "showBlockedCount", "enabled",
          "strictBlockMode", "developerMode", "hasBroadHostPermissions", "features",
          "siteOverrides"] := rfl

theorem nodup_fieldKeys_defaultFields (w : JSValue) : (fieldKeys (defaultFields w)).Nodup := by
  rw [fieldKeys_defaultFields]
  decide

theorem copyDataProperties_nil_defaultConfig (w : JSValue) :
    copyDataProperties [] (defaultConfig w) = defaultFields w := by
  rw [defaultConfig_obj w]
  exact copyDataProperties_self (nodup_fieldKeys_defaultFields w) (by simp [fieldKeys])

theorem setField_version_defaultFields (w : JSValue) :
    setField (defaultFields w) "version" (str CURRENT_CONFIG_VERSION) = defaultFields w := rfl

theorem validateConfig_defaultConfig (w : JSValue) :
    validateConfig (defaultConfig w) = .ok true := rfl

/-! ## The branches of `migrateConfig` -/

theorem migrateFrom_obj (fs : Fields) :
    migrateFrom (obj fs)
      = .ok (match lookupField "version" fs with
              | some (str v) => v
              | _ => "0") := by
  simp only [migrateFrom, toBoolean, getProp, if_true, except_ok_bind]
  cases h : lookupField "version" fs with
  | none => rfl
  | some val => cases val <;> rfl

theorem migrateFrom_cases (x : JSValue) :
    migrateFrom x = .ok "0"
      ∨ ∃ fs v, x = obj fs ∧ lookupField "version" fs = some (str v) ∧ migrateFrom x = .ok v := by
  cases x with
  | obj fs =>
    rw [migrateFrom_obj]
    cases h : lookupField "version" fs with
    | none => exact Or.inl rfl
    | some val =>
      cases val <;> first | exact Or.inl rfl | exact Or.inr ⟨_, _, rfl, h, rfl⟩
  | boolean b => cases b <;> exact Or.inl rfl
  | num n =>
    left
    simp only [migrateFrom, toBoolean, getProp]
    split <;> rfl
  | str s =>
    left
    simp only [migrateFrom, toBoolean, getProp]
    split
    · split <;> rfl
    · rfl
  | arr xs =>
    left
    simp only [migrateFrom, toBoolean, getProp]
    rfl
  | _ => exact Or.inl rfl

theorem migrateConfig_from_zero (w x : JSValue) (h : migrateFrom x = .ok "0") :
    migrateConfig w x = .ok (defaultConfig w) := by
  simp only [migrateConfig, h, except_ok_bind, jsonClone_defaultConfig, if_true]
  rfl

theorem migrateFrom_of_version {fs : Fields} {v : String}
    (h : lookupField "version" fs = some (str v)) : migrateFrom (obj fs) = .ok v := by
  rw [migrateFrom_obj, h]

theorem getProp_obj (fs : Fields) (k : String) :
    getProp (obj fs) k = .ok (field (obj fs) k) := rfl

theorem migrateConfig_legacy (w : JSValue) {fs : Fields}
    (h : lookupField "version" fs = some (str "1")) :
    migrateConfig w (obj fs)
      = .ok (obj (setField (setField (setField (setField (setField (setField (setField
          (defaultFields w)
          "enabledRulesets" (orElse (field (obj fs) "enabledRulesets") (arr [])))
          "autoReload" (notNot (field (obj fs) "autoReload")))
          "showBlockedCount" (notNot (field (obj fs) "showBlockedCount")))
          "strictBlockMode" (notNot (field (obj fs) "strictBlockMode")))
          "developerMode" (notNot (field (obj fs) "developerMode")))
          "hasBroadHostPermissions" (notNot (field (obj fs) "hasBroadHostPermissions")))
          "version" (str CURRENT_CONFIG_VERSION))) := by
  simp only [migrateConfig, migrateFrom_of_version h, except_ok_bind, jsonClone_defaultConfig,
    defaultConfig_obj, getProp_obj, setProp]
  rfl

theorem migrateConfig_current (w : JSValue) {fs : Fields}
    (h : lookupField "version" fs = some (str CURRENT_CONFIG_VERSION)) :
    migrateConfig w (obj fs)
      = .ok (obj (setField (copyDataProperties (defaultFields w) (obj fs))
          "version" (str CURRENT_CONFIG_VERSION))) := by
  simp only [migrateConfig, migrateFrom_of_version h, except_ok_bind, jsonClone_defaultConfig,
    copyDataProperties_nil_defaultConfig]
  rfl

theorem migrateConfig_unknown (w : JSValue) {fs : Fields} {v : String}
    (h : lookupField "version" fs = some (str v))
    (h0 : v ≠ "0") (h1 : v ≠ "1") (h26 : v ≠ CURRENT_CONFIG_VERSION) :
    migrateConfig w (obj fs)
      = .ok (obj (setField (setField (defaultFields w)
          "enabledRulesets" (orElse (field (obj fs) "enabledRulesets") (arr [])))
          "version" (str CURRENT_CONFIG_VERSION))) := by
  simp only [migrateConfig, migrateFrom_of_version h, except_ok_bind, jsonClone_defaultConfig,
    defaultConfig_obj, getProp_obj, setProp, h0, h1, h26, if_false]
  rfl

theorem field_obj (fs : Fields) (k : String) :
    field (obj fs) k = (lookupField k fs).getD undefined := rfl

theorem field_obj_setField (fs : Fields) (k k' : String) (v : JSValue) :
    field (obj (setField fs k' v)) k = if k' = k then v else field (obj fs) k := by
  simp only [field_obj, lookupField_setField]
  split <;> rfl

/-- Shape of every result of `migrateConfig`: an object without repeated keys
that starts with the keys of the default configuration and carries the current
version. -/
theorem migrateConfig_shape (w x : JSValue) :
    ∃ r, migrateConfig w x = .ok (obj r) ∧ (fieldKeys r).Nodup
      ∧ fieldKeys (defaultFields w) <+: fieldKeys r
      ∧ lookupField "version" r = some (str CURRENT_CONFIG_VERSION) := by
  have hD := nodup_fieldKeys_defaultFields w
  rcases migrateFrom_cases x with h | ⟨fs, v, rfl, hv, -⟩
  · exact ⟨defaultFields w, migrateConfig_from_zero w x h, hD, List.prefix_refl _, rfl⟩
  · by_cases h0 : v = "0"
    · subst h0
      exact ⟨defaultFields w, migrateConfig_from_zero w _ (migrateFrom_of_version hv), hD,
        List.prefix_refl _, rfl⟩
    by_cases h1 : v = "1"
    · subst h1
      refine ⟨_, migrateConfig_legacy w hv, ?_, ?_, ?_⟩
      · iterate 7 apply nodup_fieldKeys_setField
        exact hD
      · iterate 7 refine List.IsPrefix.trans ?_ (prefix_fieldKeys_setField _ _ _)
        exact List.prefix_refl _
      · simp [lookupField_setField]
    by_cases h26 : v = CURRENT_CONFIG_VERSION
    · subst h26
      refine ⟨_, migrateConfig_current w hv, ?_, ?_, ?_⟩
      · exact nodup_fieldKeys_setField ((copyDataProperties_keys _ _).1 hD) _ _
      · exact (copyDataProperties_keys _ _).2.trans (prefix_fieldKeys_setField _ _ _)
      · simp [lookupField_setField]
    · refine ⟨_, migrateConfig_unknown w hv h0 h1 h26, ?_, ?_, ?_⟩
      · iterate 2 apply nodup_fieldKeys_setField
        exact hD
      · iterate 2 refine List.IsPrefix.trans ?_ (prefix_fieldKeys_setField _ _ _)
        exact List.prefix_refl _
      · simp [lookupField_setField]

theorem getProp_version_eq_str {x : JSValue} {v : String}
    (h : getProp x "version" = .ok (str v)) :
    ∃ fs, x = obj fs ∧ lookupField "version" fs = some (str v) := by
  cases x with
  | obj fs =>
    refine ⟨fs, rfl, ?_⟩
    simp only [getProp, Except.ok.injEq] at h
    cases hl : lookupField "version" fs with
    | none => simp [hl] at h
    | some val => simpa [hl] using h
  | arr xs => simp [getProp] at h
  | str t => simp [getProp] at h
  | _ => simp [getProp] at h

theorem field_copyDataProperties_of_ne_undefined {s : Fields} {k : String}
    (h : field (obj s) k ≠ undefined) (t : Fields) :
    field (obj (copyDataProperties t (obj s))) k = field (obj s) k := by
  simp only [field_obj, lookupField_copyDataProperties] at h ⊢
  cases hl : lookupField k s with
  | none => simp [hl] at h
  | some v => simp

/-- A candidate is valid when its load-bearing top-level fields have the right
kinds and its `features` value is that of a valid configuration. -/
theorem specValid_of_parts {c d : JSValue} (h0 : isObjectValue c = true)
    (h1 : isStringValue (field c "version") = true)
    (h2 : isArray (field c "enabledRulesets") = true)
    (h3 : isBooleanValue (field c "autoReload") = true)
    (h4 : isBooleanValue (field c "showBlockedCount") = true)
    (hd : specValid d = true) (h5 : field c "features" = field d "features") :
    specValid c = true := by
  simp only [specValid, Bool.and_eq_true] at hd ⊢
  rw [h5]
  simp only [h0, h1, h2, h3, h4, hd, and_self]

theorem specValid_defaultConfig (w : JSValue) : specValid (defaultConfig w) = true := rfl

theorem isArray_orElse {v : JSValue} (h : isArray v = true) : orElse v (arr []) = v := by
  cases v <;> simp_all [isArray, orElse, toBoolean]

/-- On a valid input, or on one without a string version, the result of
`migrateConfig` is valid. -/
theorem migrateConfig_preserves_specValid (w x : JSValue)
    (h : specValid x = true ∨ isStringValue (field x "version") = false) :
    ∃ r, migrateConfig w x = .ok (obj r) ∧ specValid (obj r) = true := by
  rcases migrateFrom_cases x with h0 | ⟨fs, v, rfl, hv, -⟩
  · exact ⟨defaultFields w, migrateConfig_from_zero w x h0, specValid_defaultConfig w⟩
  have hver : field (obj fs) "version" = str v := by simp [field_obj, hv]
  rcases h with h | h
  swap
  · simp [hver, isStringValue] at h
  have hx := h
  simp only [specValid, Bool.and_eq_true] at hx
  obtain ⟨⟨⟨⟨⟨⟨⟨⟨⟨⟨-, -⟩, x2⟩, x3⟩, x4⟩, x5⟩, -⟩, -⟩, -⟩, -⟩, -⟩ := hx
  by_cases h0 : v = "0"
  · subst h0
    exact ⟨defaultFields w, migrateConfig_from_zero w _ (migrateFrom_of_version hv),
      specValid_defaultConfig w⟩
  by_cases h1 : v = "1"
  · subst h1
    refine ⟨_, migrateConfig_legacy w hv, ?_⟩
    refine specValid_of_parts rfl ?_ ?_ ?_ ?_ (specValid_defaultConfig w) ?_
    · simp [field_obj_setField, isStringValue]
    · simp [field_obj_setField, isArray_orElse x2, x2]
    · simp [field_obj_setField, notNot, isBooleanValue]
    · simp [field_obj_setField, notNot, isBooleanValue]
    · simp [field_obj_setField, defaultConfig_obj]
  by_cases h26 : v = CURRENT_CONFIG_VERSION
  · subst h26
    have ne_undef : ∀ k, (isArray (field (obj fs) k) = true
        ∨ isBooleanValue (field (obj fs) k) = true ∨ isObjectValue (field (obj fs) k) = true)
        → field (obj fs) k ≠ undefined := by
      intro k hk hu
      rw [hu] at hk
      simp [isArray, isBooleanValue, isObjectValue] at hk
    refine ⟨_, migrateConfig_current w hv, ?_⟩
    refine specValid_of_parts rfl ?_ ?_ ?_ ?_ h ?_
    · simp [field_obj_setField, isStringValue]
    · simp [field_obj_setField, CURRENT_CONFIG_VERSION,
        field_copyDataProperties_of_ne_undefined (ne_undef _ (Or.inl x2)), x2]
    · simp [field_obj_setField, CURRENT_CONFIG_VERSION,
        field_copyDataProperties_of_ne_undefined (ne_undef _ (Or.inr (Or.inl x3))), x3]
    · simp [field_obj_setField, CURRENT_CONFIG_VERSION,
        field_copyDataProperties_of_ne_undefined (ne_undef _ (Or.inr (Or.inl x4))), x4]
    · simp [field_obj_setField, CURRENT_CONFIG_VERSION,
        field_copyDataProperties_of_ne_undefined (ne_undef _ (Or.inr (Or.inr x5)))]
  · refine ⟨_, migrateConfig_unknown w hv h0 h1 h26, ?_⟩
    have d3 : isBooleanValue (field (defaultConfig w) "autoReload") = true := rfl
    have d4 : isBooleanValue (field (defaultConfig w) "showBlockedCount") = true := rfl
    refine specValid_of_parts rfl ?_ ?_ ?_ ?_ (specValid_defaultConfig w) ?_
    · simp [field_obj_setField, isStringValue]
    · simp [field_obj_setField, isArray_orElse x2, x2]
    · simpa [field_obj_setField, defaultConfig_obj] using d3
    · simpa [field_obj_setField, defaultConfig_obj] using d4
    · simp [field_obj_setField, defaultConfig_obj]

theorem fieldKeys_setField_of_mem {fs : Fields} {k : String} (h : k ∈ fieldKeys fs)
    (v : JSValue) : fieldKeys (setField fs k v) = fieldKeys fs := by
  rw [fieldKeys_setField, if_pos h, List.append_nil]

/-- The legacy branch writes only keys that the default configuration has. -/
theorem migrateConfig_legacy_keys (w : JSValue) {x : JSValue}
    (hversion : getProp x "version" = .ok (str "1")) :
    ∃ m, migrateConfig w x = .ok (obj m)
      ∧ fieldKeys m = fieldKeys (defaultFields w)
      ∧ lookupField "version" m = some (str "26") := by
  obtain ⟨fs, rfl, hv⟩ := getProp_version_eq_str hversion
  refine ⟨_, migrateConfig_legacy w hv, ?_, ?_⟩
  · simp [fieldKeys_setField, fieldKeys_defaultFields]
  · simp [lookupField_setField, CURRENT_CONFIG_VERSION]

/-! ## Which inputs migrate to a valid configuration -/

theorem specValid_eq_parts (c : JSValue) :
    specValid c = (isObjectValue c && isStringValue (field c "version")
      && isArray (field c "enabledRulesets") && isBooleanValue (field c "autoReload")
      && isBooleanValue (field c "showBlockedCount")
      && featuresValid (field c "features")) := by
  simp only [specValid, featuresValid, Bool.and_assoc]

theorem featuresValid_defaultFields (w : JSValue) :
    featuresValid (field (obj (defaultFields w)) "features") = true := rfl

theorem migrateFrom_eq_field (x : JSValue) :
    migrateFrom x = .ok (match field x "version" with
      | str v => v
      | _ => "0") := by
  rcases migrateFrom_cases x with h | ⟨fs, v, rfl, hv, h⟩
  · cases x with
    | obj fs =>
      rw [migrateFrom_obj]
      simp only [field_obj]
      cases hl : lookupField "version" fs with
      | none => rfl
      | some val => cases val <;> rfl
    | str t =>
      rw [h]
      simp [field, getProp]
    | arr xs =>
      rw [h]
      simp [field, getProp]
    | _ => rw [h]; rfl
  · rw [h]
    simp [field_obj, hv]

theorem field_version_eq_str {x : JSValue} {v : String} (h : field x "version" = str v) :
    ∃ fs, x = obj fs ∧ lookupField "version" fs = some (str v) := by
  cases x with
  | obj fs => exact getProp_version_eq_str (by rw [getProp_obj, h])
  | arr xs => simp [field, getProp] at h
  | str t => simp [field, getProp] at h
  | _ => simp [field, getProp] at h

theorem isArray_orElse_eq (v : JSValue) :
    isArray (orElse v (arr [])) = (!toBoolean v || isArray v) := by
  cases v with
  | boolean b => cases b <;> rfl
  | num n => by_cases h : n = 0 <;> simp [orElse, toBoolean, isArray, h]
  | str t => by_cases h : t = "" <;> simp [orElse, toBoolean, isArray, h]
  | _ => rfl

theorem absentOr_eq_of_default (p : JSValue → Bool) (D fs : Fields) (k : String)
    (hD : p (field (obj D) k) = true) :
    p (field (obj (copyDataProperties D (obj fs))) k) = absentOr p (obj fs) k := by
  simp only [field_obj, lookupField_copyDataProperties, absentOr, objectFields] at hD ⊢
  cases hl : lookupField k fs with
  | none => simpa using hD
  | some v => simp

/-- The result of `migrateConfig` passes the schema exactly on the inputs that
`migratesToValid` describes. -/
theorem migrateConfig_specValid_eq (w x : JSValue) :
    ∃ r, migrateConfig w x = .ok (obj r) ∧ specValid (obj r) = migratesToValid x := by
  have hzero : migrateFrom x = .ok "0" → migratesToValid x = true →
      ∃ r, migrateConfig w x = .ok (obj r) ∧ specValid (obj r) = migratesToValid x :=
    fun h0 hm => ⟨defaultFields w, migrateConfig_from_zero w x h0,
      by rw [hm]; exact specValid_defaultConfig w⟩
  have hfrom := migrateFrom_eq_field x
  cases hfv : field x "version" with
  | str v =>
    obtain ⟨fs, rfl, hv⟩ := field_version_eq_str hfv
    by_cases h0 : v = "0"
    · subst h0
      exact hzero (migrateFrom_of_version hv) (by simp [migratesToValid, hfv])
    by_cases h1 : v = "1"
    · subst h1
      refine ⟨_, migrateConfig_legacy w hv, ?_⟩
      rw [specValid_eq_parts]
      simp only [field_obj_setField]
      simp [migratesToValid, hfv, isObjectValue, isStringValue, notNot, isBooleanValue,
        featuresValid_defaultFields, isArray_orElse_eq]
    by_cases h26 : v = "26"
    · subst h26
      refine ⟨_, migrateConfig_current w hv, ?_⟩
      have e1 := absentOr_eq_of_default isArray (defaultFields w) fs "enabledRulesets" rfl
      have e2 := absentOr_eq_of_default isBooleanValue (defaultFields w) fs "autoReload" rfl
      have e3 := absentOr_eq_of_default isBooleanValue (defaultFields w) fs
        "showBlockedCount" rfl
      have e4 := absentOr_eq_of_default featuresValid (defaultFields w) fs "features"
        (featuresValid_defaultFields w)
      rw [specValid_eq_parts]
      simp only [field_obj_setField]
      simp [migratesToValid, hfv, isObjectValue, isStringValue, CURRENT_CONFIG_VERSION,
        e1, e2, e3, e4]
    · refine ⟨_, migrateConfig_unknown w hv h0 h1 h26, ?_⟩
      have d3 : isBooleanValue (field (obj (defaultFields w)) "autoReload") = true := rfl
      have d4 : isBooleanValue (field (obj (defaultFields w)) "showBlockedCount") = true := rfl
      rw [specValid_eq_parts]
      simp only [field_obj_setField]
      simp [migratesToValid, hfv, h0, h26, isObjectValue, isStringValue, d3, d4,
        featuresValid_defaultFields, isArray_orElse_eq]
  | _ =>
    rw [hfv] at hfrom
    exact hzero hfrom (by simp [migratesToValid, hfv])

/-! ## The validator -/

/-- Claim C1.  `validateConfig` never raises and returns `true` exactly when the
candidate meets the schema as the specification words it (`specValid`), `false`
in every other case; in particular it returns `false` when a required
top-level field, `features.youtubeFadeSkip`, or a required tunable of
`features.youtubeFadeSkip` is missing. -/
theorem validateConfig_true_iff_schema (candidate : JSValue) :
    validateConfig candidate = .ok (specValid candidate)
    ∧ (validateConfig candidate = .ok true ↔ specValid candidate = true)
    ∧ (specValid candidate = false → validateConfig candidate = .ok false)
    ∧ (∀ k ∈ ["version", "enabledRulesets", "autoReload", "showBlockedCount", "features"],
        field candidate k = undefined → validateConfig candidate = .ok false)
    ∧ (field (field candidate "features") "youtubeFadeSkip" = undefined →
        validateConfig candidate = .ok false)
    ∧ (∀ k ∈ ["enabled", "fadeThreshold", "minDurationMs", "debounceMs"],
        field (field (field candidate "features") "youtubeFadeSkip") k = undefined →
        validateConfig candidate = .ok false) := by
  have h := validateConfig_eq_specValid candidate
  refine ⟨h, ?_, ?_, ?_, ?_, ?_⟩
  · rw [h]
    simp
  · intro hf
    rw [h, hf]
  · intro k hk hu
    rw [h]
    simp only [List.mem_cons, List.mem_singleton, List.not_mem_nil, or_false] at hk
    rcases hk with rfl | rfl | rfl | rfl | rfl <;>
      simp [specValid, hu, isStringValue, isArray, isBooleanValue, isObjectValue]
  · intro hu
    rw [h]
    simp [specValid, hu, isObjectValue]
  · intro k hk hu
    rw [h]
    simp only [List.mem_cons, List.mem_singleton, List.not_mem_nil, or_false] at hk
    rcases hk with rfl | rfl | rfl | rfl <;>
      simp [specValid, hu, isBooleanValue, isNumberValue]

/-! ## The migrator -/

/-- Claim C7.  For every input, `migrateConfig` returns, and the `version` field
of its result is the current schema version `'26'`. -/
theorem migrateConfig_version_current (webextFlavor oldConfig : JSValue) :
    ∃ r, migrateConfig webextFlavor oldConfig = .ok r
      ∧ getProp r "version" = .ok (str "26") := by
  obtain ⟨r, hr, -, -, hv⟩ := migrateConfig_shape webextFlavor oldConfig
  refine ⟨obj r, hr, ?_⟩
  simp only [getProp, hv]
  rfl

/-- Claim C3.  Migration is idempotent: for every input, `migrateConfig` returns
a value on which `migrateConfig` returns that same value again. -/
theorem migrateConfig_idempotent (webextFlavor oldConfig : JSValue) :
    ∃ r, migrateConfig webextFlavor oldConfig = .ok r
      ∧ migrateConfig webextFlavor r = .ok r := by
  obtain ⟨r, hr, hnd, hpre, hv⟩ := migrateConfig_shape webextFlavor oldConfig
  refine ⟨obj r, hr, ?_⟩
  rw [migrateConfig_current webextFlavor hv, copyDataProperties_self hnd hpre,
    setField_of_lookupField hv]

/-- Claim C2, refuted as stated.  On the malformed current-version object
`{ version: '26', autoReload: 'yes' }` the migrator returns a value that fails
`validateConfig`: the shallow merge carries the string `autoReload` over. -/
theorem migrateConfig_result_invalid_on_malformed :
    ∃ r, migrateConfig (str "chromium")
          (obj [("version", str "26"), ("autoReload", str "yes")]) = .ok r
      ∧ validateConfig r = .ok false :=
  ⟨_, rfl, rfl⟩

/-- Claim C2, amended.  For every input `migrateConfig` returns without raising,
and its result passes `validateConfig` exactly when the input has no string
version or has version `'0'`, or has version `'26'` and each of
`enabledRulesets`, `autoReload`, `showBlockedCount` and `features` is absent
from it or of the kind the schema requires, or has any other version and an
`enabledRulesets` that is falsy or an array (`migratesToValid`).  In particular
the result is valid whenever the input passes `validateConfig` or carries no
string version. -/
theorem migrateConfig_total_valid_iff (webextFlavor oldConfig : JSValue) :
    ∃ r, migrateConfig webextFlavor oldConfig = .ok r
      ∧ validateConfig r = .ok (migratesToValid oldConfig)
      ∧ (validateConfig r = .ok true ↔ migratesToValid oldConfig = true)
      ∧ ((validateConfig oldConfig = .ok true
            ∨ isStringValue (field oldConfig "version") = false) →
          validateConfig r = .ok true) := by
  obtain ⟨r, hr, hv⟩ := migrateConfig_specValid_eq webextFlavor oldConfig
  have hvalid : validateConfig (obj r) = .ok (migratesToValid oldConfig) := by
    rw [validateConfig_eq_specValid, hv]
  refine ⟨obj r, hr, hvalid, ?_, ?_⟩
  · rw [hvalid]
    simp
  · intro h
    rw [validateConfig_eq_specValid] at h
    simp only [Except.ok.injEq] at h
    obtain ⟨r', hr', hv'⟩ := migrateConfig_preserves_specValid webextFlavor oldConfig h
    rw [hr] at hr'
    cases hr'
    rw [validateConfig_eq_specValid, hv']

/-- Witness for claim C2 (amended): the legacy input
`{ version: '1', autoReload: 'yes' }` fails `validateConfig`, and its migration
passes it. -/
theorem migrateConfig_total_valid_iff_witness :
    validateConfig (obj [("version", str "1"), ("autoReload", str "yes")]) = .ok false
    ∧ migratesToValid (obj [("version", str "1"), ("autoReload", str "yes")]) = true
    ∧ ∃ r, migrateConfig (str "chromium")
          (obj [("version", str "1"), ("autoReload", str "yes")]) = .ok r
      ∧ validateConfig r
          = .ok (migratesToValid (obj [("version", str "1"), ("autoReload", str "yes")]))
      ∧ (validateConfig r = .ok true
          ↔ migratesToValid (obj [("version", str "1"), ("autoReload", str "yes")]) = true)
      ∧ ((validateConfig (obj [("version", str "1"), ("autoReload", str "yes")]) = .ok true
            ∨ isStringValue (field (obj [("version", str "1"), ("autoReload", str "yes")])
                "version") = false) →
          validateConfig r = .ok true) :=
  ⟨rfl, rfl, migrateConfig_total_valid_iff (str "chromium")
    (obj [("version", str "1"), ("autoReload", str "yes")])⟩

/-- Claim C4.  For every configuration `c` that passes `validateConfig` and whose
version is `'26'`, `migrateConfig c` is the top-level merge of the default
configuration with `c`: every top-level field of `c` has `c`'s value in the
result, and every key that `c` lacks is in the result exactly as it is in the
default configuration. -/
theorem migrateConfig_current_is_merge (webextFlavor c : JSValue)
    (hvalid : validateConfig c = .ok true) (hversion : getProp c "version" = .ok (str "26")) :
    ∃ r, migrateConfig webextFlavor c = .ok (obj r)
      ∧ (∀ k v, lookupField k (objectFields c) = some v → lookupField k r = some v)
      ∧ (∀ k, lookupField k (objectFields c) = none →
          lookupField k r = lookupField k (defaultFields webextFlavor)) := by
  obtain ⟨fs, rfl, hv⟩ := getProp_version_eq_str hversion
  refine ⟨_, migrateConfig_current webextFlavor hv, ?_, ?_⟩
  · intro k v hk
    simp only [objectFields] at hk
    rw [lookupField_setField]
    split
    · next hkv =>
      subst hkv
      rw [hv] at hk
      exact hk
    · rw [lookupField_copyDataProperties, hk]
      rfl
  · intro k hk
    simp only [objectFields] at hk
    rw [lookupField_setField]
    split
    · next hkv =>
      subst hkv
      rw [hv] at hk
      cases hk
    · rw [lookupField_copyDataProperties, hk]
      rfl

/-- Witness for claim C4: a valid current-version configuration that switches
`autoReload` off, carries an extra field and leaves out several defaults. -/
theorem migrateConfig_current_is_merge_witness :
    ∃ r, migrateConfig (str "chromium") sampleCurrentConfig = .ok (obj r)
      ∧ (∀ k v, lookupField k (objectFields sampleCurrentConfig) = some v →
          lookupField k r = some v)
      ∧ (∀ k, lookupField k (objectFields sampleCurrentConfig) = none →
          lookupField k r = lookupField k (defaultFields (str "chromium"))) :=
  migrateConfig_current_is_merge (str "chromium") sampleCurrentConfig rfl rfl

/-- Claim C5, refuted as stated.  The version string `'0'` is neither `'1'` nor
`'26'`, yet the input's ruleset list is not carried over: the result has the
default list. -/
theorem migrateConfig_version_zero_drops_rulesets :
    getProp (obj [("version", str "0"), ("enabledRulesets", arr [str "annoyances"])])
        "version" = .ok (str "0")
    ∧ "0" ≠ "1" ∧ "0" ≠ "26"
    ∧ ∃ r, migrateConfig (str "chromium")
          (obj [("version", str "0"), ("enabledRulesets", arr [str "annoyances"])]) = .ok r
      ∧ getProp r "enabledRulesets" = .ok (arr [str "default"])
      ∧ arr [str "default"] ≠ arr [str "annoyances"] :=
  ⟨rfl, by decide, by decide, _, rfl, rfl, by simp⟩

/-- Claim C5, amended.  For every input whose version is a string other than
`'0'`, `'1'` and `'26'`, `migrateConfig` returns a configuration whose
`enabledRulesets` is the input's `enabledRulesets` when that value is truthy
(every array is) and the empty sequence otherwise (in particular when the
input has none), whose `version` is `'26'`, and whose every other field is as
in the default configuration. -/
theorem migrateConfig_unknown_version (webextFlavor oldConfig : JSValue) (v : String)
    (hversion : getProp oldConfig "version" = .ok (str v))
    (h0 : v ≠ "0") (h1 : v ≠ "1") (h26 : v ≠ "26") :
    ∃ r, migrateConfig webextFlavor oldConfig = .ok (obj r)
      ∧ lookupField "enabledRulesets" r
          = some (orElse (field oldConfig "enabledRulesets") (arr []))
      ∧ (∀ xs, field oldConfig "enabledRulesets" = arr xs →
          lookupField "enabledRulesets" r = some (arr xs))
      ∧ (field oldConfig "enabledRulesets" = undefined →
          lookupField "enabledRulesets" r = some (arr []))
      ∧ lookupField "version" r = some (str "26")
      ∧ (∀ k, k ≠ "enabledRulesets" → k ≠ "version" →
          lookupField k r = lookupField k (defaultFields webextFlavor)) := by
  obtain ⟨fs, rfl, hv⟩ := getProp_version_eq_str hversion
  have hr : lookupField "enabledRulesets"
      (setField (setField (defaultFields webextFlavor) "enabledRulesets"
        (orElse (field (obj fs) "enabledRulesets") (arr []))) "version"
        (str CURRENT_CONFIG_VERSION))
      = some (orElse (field (obj fs) "enabledRulesets") (arr [])) := by
    simp [lookupField_setField]
  refine ⟨_, migrateConfig_unknown webextFlavor hv h0 h1 h26, hr, ?_, ?_, ?_, ?_⟩
  · intro xs hxs
    rw [hr, hxs]
    rfl
  · intro hu
    rw [hr, hu]
    rfl
  · simp [lookupField_setField, CURRENT_CONFIG_VERSION]
  · intro k hk1 hk2
    simp [lookupField_setField, Ne.symm hk1, Ne.symm hk2]

/-- Witness for claim C5 (amended): an input of the unknown version `'7'`. -/
theorem migrateConfig_unknown_version_witness :
    ∃ r, migrateConfig (str "chromium")
          (obj [("version", str "7"), ("enabledRulesets", arr [str "annoyances"])])
          = .ok (obj r)
      ∧ lookupField "enabledRulesets" r
          = some (orElse (field (obj [("version", str "7"),
              ("enabledRulesets", arr [str "annoyances"])]) "enabledRulesets") (arr []))
      ∧ (∀ xs, field (obj [("version", str "7"),
              ("enabledRulesets", arr [str "annoyances"])]) "enabledRulesets" = arr xs →
          lookupField "enabledRulesets" r = some (arr xs))
      ∧ (field (obj [("version", str "7"),
              ("enabledRulesets", arr [str "annoyances"])]) "enabledRulesets" = undefined →
          lookupField "enabledRulesets" r = some (arr []))
      ∧ lookupField "version" r = some (str "26")
      ∧ (∀ k, k ≠ "enabledRulesets" → k ≠ "version" →
          lookupField k r = lookupField k (defaultFields (str "chromium"))) :=
  migrateConfig_unknown_version (str "chromium") _ "7" rfl (by decide) (by decide) (by decide)

/-- Claim C6, refuted as stated.  On the legacy input
`{ version: '1', enabledRulesets: 'abc' }` the result's `enabledRulesets` is
the string `'abc'`, not an array: `||` only supplies `[]` for a falsy value. -/
theorem migrateConfig_legacy_rulesets_not_coerced :
    ∃ r, migrateConfig (str "chromium")
          (obj [("version", str "1"), ("enabledRulesets", str "abc")]) = .ok r
      ∧ getProp r "enabledRulesets" = .ok (str "abc")
      ∧ isArray (str "abc") = false :=
  ⟨_, rfl, rfl, rfl⟩

/-- Claim C6, amended.  For every input whose version is `'1'`, the result of
`migrateConfig` has `autoReload`, `showBlockedCount`, `strictBlockMode`,
`developerMode` and `hasBroadHostPermissions` each coerced to a boolean from
the input's field, `enabledRulesets` equal to the input's field when that is
truthy (every array is) and to the empty array otherwise, and every other
field as in the default configuration. -/
theorem migrateConfig_legacy_fields (webextFlavor oldConfig : JSValue)
    (hversion : getProp oldConfig "version" = .ok (str "1")) :
    ∃ r, migrateConfig webextFlavor oldConfig = .ok (obj r)
      ∧ (∀ k ∈ ["autoReload", "showBlockedCount", "strictBlockMode", "developerMode",
            "hasBroadHostPermissions"],
          lookupField k r = some (boolean (toBoolean (field oldConfig k))))
      ∧ lookupField "enabledRulesets" r
          = some (if toBoolean (field oldConfig "enabledRulesets")
              then field oldConfig "enabledRulesets" else arr [])
      ∧ (∀ xs, field oldConfig "enabledRulesets" = arr xs →
          lookupField "enabledRulesets" r = some (arr xs))
      ∧ (∀ k, k ∉ ["enabledRulesets", "autoReload", "showBlockedCount", "strictBlockMode",
            "developerMode", "hasBroadHostPermissions"] →
          lookupField k r = lookupField k (defaultFields webextFlavor)) := by
  obtain ⟨fs, rfl, hv⟩ := getProp_version_eq_str hversion
  refine ⟨_, migrateConfig_legacy webextFlavor hv, ?_, ?_, ?_, ?_⟩
  · intro k hk
    simp only [List.mem_cons, List.mem_singleton, List.not_mem_nil, or_false] at hk
    rcases hk with rfl | rfl | rfl | rfl | rfl <;>
      simp [lookupField_setField, notNot]
  · simp [lookupField_setField, orElse]
  · intro xs hxs
    simp [lookupField_setField, orElse, hxs, toBoolean]
  · intro k hk
    simp only [List.mem_cons, List.mem_singleton, List.not_mem_nil, or_false, not_or] at hk
    obtain ⟨k1, k2, k3, k4, k5, k6⟩ := hk
    simp only [lookupField_setField, Ne.symm k1, Ne.symm k2, Ne.symm k3, Ne.symm k4,
      Ne.symm k5, Ne.symm k6, if_false]
    by_cases hkv : "version" = k
    · subst hkv
      rfl
    · simp [hkv]

/-- Witness for claim C6 (amended): a valid legacy configuration. -/
theorem migrateConfig_legacy_fields_witness :
    ∃ r, migrateConfig (str "chromium") sampleLegacyConfig = .ok (obj r)
      ∧ (∀ k ∈ ["autoReload", "showBlockedCount", "strictBlockMode", "developerMode",
            "hasBroadHostPermissions"],
          lookupField k r = some (boolean (toBoolean (field sampleLegacyConfig k))))
      ∧ lookupField "enabledRulesets" r
          = some (if toBoolean (field sampleLegacyConfig "enabledRulesets")
              then field sampleLegacyConfig "enabledRulesets" else arr [])
      ∧ (∀ xs, field sampleLegacyConfig "enabledRulesets" = arr xs →
          lookupField "enabledRulesets" r = some (arr xs))
      ∧ (∀ k, k ∉ ["enabledRulesets", "autoReload", "showBlockedCount", "strictBlockMode",
            "developerMode", "hasBroadHostPermissions"] →
          lookupField k r = lookupField k (defaultFields (str "chromium"))) :=
  migrateConfig_legacy_fields (str "chromium") sampleLegacyConfig rfl

/-! ## Reading and loading -/

theorem specValid_of_falsy {v : JSValue} (h : toBoolean v = false) : specValid v = false := by
  cases v <;> simp_all [toBoolean, specValid, isObjectValue]

theorem presentAndValid_eq (v : JSValue) : presentAndValid v = .ok (specValid v) := by
  unfold presentAndValid
  by_cases h : toBoolean v = true
  · simp [h, validateConfig_eq_specValid]
  · simp only [Bool.not_eq_true] at h
    simp [h, specValid_of_falsy h, except_pure_eq]

theorem Tier.read_of_ok {t : Tier} (h : t.readFails = false) (key : String) :
    t.read key = .ok ((lookupField key t.entries).getD undefined) := by
  simp [Tier.read, h]

theorem readConfigFromStorage_session {s : State} (hs : s.sessionTier.readFails = false)
    (hv : specValid (s.sessionTier.stored.getD undefined) = true) :
    readConfigFromStorage s = .ok (s.sessionTier.stored.getD undefined) := by
  simp only [Tier.stored] at hv
  simp [readConfigFromStorage, Tier.read_of_ok hs, except_ok_bind, presentAndValid_eq, hv,
    except_pure_eq, Tier.stored]

theorem readConfigFromStorage_local {s : State} (hs : s.sessionTier.readFails = false)
    (hl : s.localTier.readFails = false)
    (hv : specValid (s.sessionTier.stored.getD undefined) = false) :
    readConfigFromStorage s
      = .ok (if specValid (s.localTier.stored.getD undefined) = true
          then s.localTier.stored.getD undefined else null) := by
  simp only [Tier.stored] at hv
  simp only [readConfigFromStorage, Tier.read_of_ok hs, Tier.read_of_ok hl, except_ok_bind,
    presentAndValid_eq, hv, except_pure_eq, Tier.stored, Bool.false_eq_true, if_false]
  by_cases h : specValid ((lookupField "rulesetConfig" s.localTier.entries).getD undefined) = true
  · simp [h]
  · simp [h]

theorem readConfigFromStorage_local_fails {s : State} (hs : s.sessionTier.readFails = false)
    (hl : s.localTier.readFails = true)
    (hv : specValid (s.sessionTier.stored.getD undefined) = false) :
    readConfigFromStorage s = .error .storageError := by
  simp only [Tier.stored] at hv
  have hread : s.localTier.read "rulesetConfig" = .error .storageError := by
    simp [Tier.read, hl]
  simp only [readConfigFromStorage, Tier.read_of_ok hs, except_ok_bind, presentAndValid_eq, hv,
    Bool.false_eq_true, if_false, hread]
  rfl

theorem Tier.stored_write {t : Tier} (h : t.writeFails = false) (value : JSValue) :
    (t.write "rulesetConfig" value).2.stored = some value := by
  simp [Tier.write, h, Tier.stored, lookupField_setField]

theorem writeBothTiers_spec (s : State) :
    (writeBothTiers s).rulesetConfig = s.rulesetConfig
    ∧ (writeBothTiers s).process = s.process
    ∧ (s.sessionTier.writeFails = false →
        (writeBothTiers s).sessionTier.stored = some (obj s.rulesetConfig))
    ∧ (s.localTier.writeFails = false →
        (writeBothTiers s).localTier.stored = some (obj s.rulesetConfig)) :=
  ⟨rfl, rfl, fun h => Tier.stored_write h _, fun h => Tier.stored_write h _⟩

theorem loadRulesetConfig_of_source {w : JSValue} {s : State} {source : JSValue} {m : Fields}
    (hread : readConfigFromStorage s = .ok source) (htruthy : toBoolean source = true)
    (hm : migrateConfig w source = .ok (obj m)) :
    loadRulesetConfig w s
      = writeBothTiers
          { s with
            rulesetConfig := objectAssign s.rulesetConfig (obj m)
            process := setField (setField s.process "firstRun" (boolean false))
              "wakeupRun" (boolean true) } := by
  simp [loadRulesetConfig, hread, htruthy, hm]

theorem loadRulesetConfig_of_no_source {w : JSValue} {s : State}
    (hread : readConfigFromStorage s = .ok null) :
    loadRulesetConfig w s
      = writeBothTiers
          { s with
            process := setField (setField s.process "firstRun" (boolean true))
              "wakeupRun" (boolean false) } := by
  simp [loadRulesetConfig, hread, toBoolean]

theorem toBoolean_of_specValid {v : JSValue} (h : specValid v = true) : toBoolean v = true := by
  cases v <;> simp_all [toBoolean, specValid, isObjectValue]

theorem stored_getD_of_none {t : Tier} (h : t.stored = none) :
    specValid (t.stored.getD undefined) = false := by
  rw [h]
  rfl

/-- The first-run branch of `loadRulesetConfig`: with working storage and both
tiers empty, the flags become `firstRun = true`, `wakeupRun = false`, the
in-memory instance is left as it is, and that instance is what both tiers
receive. -/
theorem loadRulesetConfig_first_run (w : JSValue) (s : State)
    (hsr : s.sessionTier.readFails = false) (hlr : s.localTier.readFails = false)
    (hsw : s.sessionTier.writeFails = false) (hlw : s.localTier.writeFails = false)
    (hs : s.sessionTier.stored = none) (hl : s.localTier.stored = none) :
    lookupField "firstRun" (loadRulesetConfig w s).process = some (boolean true)
    ∧ lookupField "wakeupRun" (loadRulesetConfig w s).process = some (boolean false)
    ∧ (loadRulesetConfig w s).rulesetConfig = s.rulesetConfig
    ∧ (loadRulesetConfig w s).sessionTier.stored = some (obj s.rulesetConfig)
    ∧ (loadRulesetConfig w s).localTier.stored = some (obj s.rulesetConfig) := by
  have hread : readConfigFromStorage s = .ok null := by
    rw [readConfigFromStorage_local hsr hlr (stored_getD_of_none hs),
      stored_getD_of_none hl]
    rfl
  rw [loadRulesetConfig_of_no_source hread]
  refine ⟨?_, ?_, rfl, ?_, ?_⟩
  · simp [writeBothTiers, lookupField_setField]
  · simp [writeBothTiers, lookupField_setField]
  · exact (writeBothTiers_spec _).2.2.1 hsw
  · exact (writeBothTiers_spec _).2.2.2 hlw

/-- Claim C8, evaluated where it fails.  With both tiers empty and an in-memory
instance whose `enabled` has been switched off, `loadRulesetConfig` ends with
`firstRun = true` and `wakeupRun = false`, and both tiers hold the in-memory
instance, whose `enabled` is `false`, not the default configuration, whose
`enabled` is `true`. -/
theorem loadRulesetConfig_first_run_persists_instance :
    lookupField "firstRun" (loadRulesetConfig (str "chromium") mutatedState).process
        = some (boolean true)
    ∧ lookupField "wakeupRun" (loadRulesetConfig (str "chromium") mutatedState).process
        = some (boolean false)
    ∧ (loadRulesetConfig (str "chromium") mutatedState).sessionTier.stored
        = some (obj mutatedState.rulesetConfig)
    ∧ (loadRulesetConfig (str "chromium") mutatedState).localTier.stored
        = some (obj mutatedState.rulesetConfig)
    ∧ field (obj mutatedState.rulesetConfig) "enabled" = boolean false
    ∧ field (defaultConfig (str "chromium")) "enabled" = boolean true :=
  ⟨rfl, rfl, rfl, rfl, rfl, rfl⟩

/-- Claim C9.  Starting from process start (the in-memory instance is the
default configuration), with working storage, the session tier empty and the
local tier holding an object `l` that passes `validateConfig` and has the
legacy version `'1'`, `loadRulesetConfig` ends with the in-memory instance's
`version` equal to `'26'`, and the in-memory instance and both tiers equal to
`migrateConfig l`. -/
theorem loadRulesetConfig_migrates_legacy (webextFlavor : JSValue) (sessionTier localTier : Tier)
    (l : JSValue)
    (hsr : sessionTier.readFails = false) (hsw : sessionTier.writeFails = false)
    (hlr : localTier.readFails = false) (hlw : localTier.writeFails = false)
    (hsession : sessionTier.stored = none) (hlocal : localTier.stored = some l)
    (hvalid : validateConfig l = .ok true) (hversion : getProp l "version" = .ok (str "1")) :
    ∃ m, migrateConfig webextFlavor l = .ok m
      ∧ lookupField "version"
          (loadRulesetConfig webextFlavor
            (initialState webextFlavor sessionTier localTier)).rulesetConfig = some (str "26")
      ∧ obj (loadRulesetConfig webextFlavor
            (initialState webextFlavor sessionTier localTier)).rulesetConfig = m
      ∧ (loadRulesetConfig webextFlavor
            (initialState webextFlavor sessionTier localTier)).sessionTier.stored = some m
      ∧ (loadRulesetConfig webextFlavor
            (initialState webextFlavor sessionTier localTier)).localTier.stored = some m := by
  rw [validateConfig_eq_specValid] at hvalid
  simp only [Except.ok.injEq] at hvalid
  obtain ⟨m, hm, hkeys, hv⟩ := migrateConfig_legacy_keys webextFlavor hversion
  have hnd : (fieldKeys m).Nodup := hkeys ▸ nodup_fieldKeys_defaultFields webextFlavor
  have hproto : "__proto__" ∉ fieldKeys m := by
    rw [hkeys, fieldKeys_defaultFields]
    decide
  have hread : readConfigFromStorage (initialState webextFlavor sessionTier localTier)
      = .ok l := by
    rw [readConfigFromStorage_local hsr hlr (stored_getD_of_none hsession)]
    simp [initialState, hlocal, hvalid]
  have hcopy : objectAssign
      (initialState webextFlavor sessionTier localTier).rulesetConfig (obj m) = m := by
    rw [objectAssign_eq_copyDataProperties hproto]
    exact copyDataProperties_self hnd (by rw [hkeys]; exact List.prefix_refl _)
  rw [loadRulesetConfig_of_source hread (toBoolean_of_specValid hvalid) hm, hcopy]
  refine ⟨obj m, hm, hv, rfl, ?_, ?_⟩
  · exact (writeBothTiers_spec _).2.2.1 hsw
  · exact (writeBothTiers_spec _).2.2.2 hlw

/-- Witness for claim C9: the local tier holds the sample legacy configuration. -/
theorem loadRulesetConfig_migrates_legacy_witness :
    ∃ m, migrateConfig (str "chromium") sampleLegacyConfig = .ok m
      ∧ lookupField "version"
          (loadRulesetConfig (str "chromium") (initialState (str "chromium") emptyTier
            (tierHolding sampleLegacyConfig))).rulesetConfig = some (str "26")
      ∧ obj (loadRulesetConfig (str "chromium") (initialState (str "chromium") emptyTier
            (tierHolding sampleLegacyConfig))).rulesetConfig = m
      ∧ (loadRulesetConfig (str "chromium") (initialState (str "chromium") emptyTier
            (tierHolding sampleLegacyConfig))).sessionTier.stored = some m
      ∧ (loadRulesetConfig (str "chromium") (initialState (str "chromium") emptyTier
            (tierHolding sampleLegacyConfig))).localTier.stored = some m :=
  loadRulesetConfig_migrates_legacy (str "chromium") emptyTier (tierHolding sampleLegacyConfig)
    sampleLegacyConfig rfl rfl rfl rfl rfl rfl rfl rfl

/-- Claim C10.  With working reads, `readConfigFromStorage` yields the session
value when it is present and passes `validateConfig`, whatever the local tier
holds; otherwise the local value when that is present and passes
`validateConfig`; otherwise `null`.  Whatever it yields is `null` or passes
`validateConfig`. -/
theorem readConfigFromStorage_selects (s : State) (hs : s.sessionTier.readFails = false) :
    (∀ v, s.sessionTier.stored = some v → validateConfig v = .ok true →
      readConfigFromStorage s = .ok v)
    ∧ (s.localTier.readFails = false →
        (∀ v, s.sessionTier.stored = some v → validateConfig v = .ok false) →
        (∀ l, s.localTier.stored = some l → validateConfig l = .ok true →
          readConfigFromStorage s = .ok l)
        ∧ ((∀ l, s.localTier.stored = some l → validateConfig l = .ok false) →
          readConfigFromStorage s = .ok null))
    ∧ (∀ r, readConfigFromStorage s = .ok r → r = null ∨ validateConfig r = .ok true) := by
  simp only [validateConfig_eq_specValid, Except.ok.injEq]
  refine ⟨?_, ?_, ?_⟩
  · intro v hv hvalid
    rw [readConfigFromStorage_session hs (by rw [hv]; exact hvalid), hv]
    rfl
  · intro hl hsess
    have hsv : specValid (s.sessionTier.stored.getD undefined) = false := by
      cases h : s.sessionTier.stored with
      | none => rfl
      | some v => exact hsess v h
    rw [readConfigFromStorage_local hs hl hsv]
    constructor
    · intro l hlv hvalid
      simp [hlv, hvalid]
    · intro hloc
      have hlv : specValid (s.localTier.stored.getD undefined) = false := by
        cases h : s.localTier.stored with
        | none => rfl
        | some v => exact hloc v h
      simp [hlv]
  · intro r hr
    by_cases hsv : specValid (s.sessionTier.stored.getD undefined) = true
    · rw [readConfigFromStorage_session hs hsv] at hr
      cases hr
      exact Or.inr hsv
    · simp only [Bool.not_eq_true] at hsv
      by_cases hl : s.localTier.readFails = false
      · rw [readConfigFromStorage_local hs hl hsv] at hr
        by_cases hlv : specValid (s.localTier.stored.getD undefined) = true
        · simp only [hlv, if_true, Except.ok.injEq] at hr
          subst hr
          exact Or.inr hlv
        · simp only [hlv, Bool.false_eq_true, if_false, Except.ok.injEq] at hr
          exact Or.inl hr.symm
      · simp only [Bool.not_eq_false] at hl
        rw [readConfigFromStorage_local_fails hs hl hsv] at hr
        cases hr

/-- Witness for claim C10: the session tier holds a valid configuration and the
local tier another one; the session value is selected. -/
theorem readConfigFromStorage_selects_witness :
    (∀ v, sampleState.sessionTier.stored = some v → validateConfig v = .ok true →
      readConfigFromStorage sampleState = .ok v)
    ∧ (sampleState.localTier.readFails = false →
        (∀ v, sampleState.sessionTier.stored = some v → validateConfig v = .ok false) →
        (∀ l, sampleState.localTier.stored = some l → validateConfig l = .ok true →
          readConfigFromStorage sampleState = .ok l)
        ∧ ((∀ l, sampleState.localTier.stored = some l → validateConfig l = .ok false) →
          readConfigFromStorage sampleState = .ok null))
    ∧ (∀ r, readConfigFromStorage sampleState = .ok r → r = null ∨ validateConfig r = .ok true) :=
  readConfigFromStorage_selects sampleState rfl

/-! ## Load: storage failure and process flags -/

theorem readConfigFromStorage_session_fails {s : State} (hs : s.sessionTier.readFails = true) :
    readConfigFromStorage s = .error .storageError := by
  have hread : s.sessionTier.read "rulesetConfig" = .error .storageError := by
    simp [Tier.read, hs]
  simp only [readConfigFromStorage, hread]
  rfl

theorem loadRulesetConfig_of_read_error {w : JSValue} {s : State} {e : JSError}
    (hread : readConfigFromStorage s = .error e) : loadRulesetConfig w s = loadCatch s := by
  simp [loadRulesetConfig, hread]

theorem loadCatch_spec (s : State) :
    (loadCatch s).rulesetConfig = s.rulesetConfig
    ∧ (loadCatch s).sessionTier = s.sessionTier
    ∧ (loadCatch s).localTier = s.localTier
    ∧ lookupField "firstRun" (loadCatch s).process = some (boolean true)
    ∧ lookupField "wakeupRun" (loadCatch s).process = some (boolean true)
    ∧ lookupField "developerMode" (loadCatch s).process = some (boolean true) := by
  refine ⟨rfl, rfl, rfl, ?_, ?_, ?_⟩ <;> simp [loadCatch, lookupField_setField]

/-- Claim C11.  When a storage read that `loadRulesetConfig` performs raises (the
session read, or the local read after a session value that is absent or
invalid), the call still returns a state: the in-memory instance and both
tiers are exactly as before, and the process flags are `firstRun = true`,
`wakeupRun = true`, `developerMode = true`. -/
theorem loadRulesetConfig_read_failure (webextFlavor : JSValue) (s : State)
    (h : s.sessionTier.readFails = true
      ∨ (s.sessionTier.readFails = false
          ∧ validateConfig (s.sessionTier.stored.getD undefined) = .ok false
          ∧ s.localTier.readFails = true)) :
    (loadRulesetConfig webextFlavor s).rulesetConfig = s.rulesetConfig
    ∧ (loadRulesetConfig webextFlavor s).sessionTier = s.sessionTier
    ∧ (loadRulesetConfig webextFlavor s).localTier = s.localTier
    ∧ lookupField "firstRun" (loadRulesetConfig webextFlavor s).process = some (boolean true)
    ∧ lookupField "wakeupRun" (loadRulesetConfig webextFlavor s).process = some (boolean true)
    ∧ lookupField "developerMode" (loadRulesetConfig webextFlavor s).process
        = some (boolean true) := by
  have hread : readConfigFromStorage s = .error .storageError := by
    rcases h with h | ⟨hs, hv, hl⟩
    · exact readConfigFromStorage_session_fails h
    · rw [validateConfig_eq_specValid] at hv
      simp only [Except.ok.injEq] at hv
      exact readConfigFromStorage_local_fails hs hl hv
  rw [loadRulesetConfig_of_read_error hread]
  exact loadCatch_spec s

/-- Witness for claim C11: the session read raises. -/
theorem loadRulesetConfig_read_failure_witness :
    (loadRulesetConfig (str "chromium") brokenSessionState).rulesetConfig
        = brokenSessionState.rulesetConfig
    ∧ (loadRulesetConfig (str "chromium") brokenSessionState).sessionTier
        = brokenSessionState.sessionTier
    ∧ (loadRulesetConfig (str "chromium") brokenSessionState).localTier
        = brokenSessionState.localTier
    ∧ lookupField "firstRun" (loadRulesetConfig (str "chromium") brokenSessionState).process
        = some (boolean true)
    ∧ lookupField "wakeupRun" (loadRulesetConfig (str "chromium") brokenSessionState).process
        = some (boolean true)
    ∧ lookupField "developerMode" (loadRulesetConfig (str "chromium") brokenSessionState).process
        = some (boolean true) :=
  loadRulesetConfig_read_failure (str "chromium") brokenSessionState (Or.inl rfl)

/-- Claim C18.  After a `loadRulesetConfig` that meets no storage failure (the
session read succeeds, and so does the local read whenever it is performed,
that is whenever the session value does not pass `validateConfig`), `firstRun`
is `true` exactly when neither tier held a value that passes `validateConfig`,
`wakeupRun` is `true` exactly when some tier held one, and the two flags are
opposite booleans. -/
theorem loadRulesetConfig_flags (webextFlavor : JSValue) (s : State)
    (hs : s.sessionTier.readFails = false)
    (hl : validateConfig (s.sessionTier.stored.getD undefined) = .ok true
      ∨ s.localTier.readFails = false) :
    (lookupField "firstRun" (loadRulesetConfig webextFlavor s).process = some (boolean true)
      ↔ ¬ ((∃ v, s.sessionTier.stored = some v ∧ validateConfig v = .ok true)
          ∨ (∃ v, s.localTier.stored = some v ∧ validateConfig v = .ok true)))
    ∧ (lookupField "wakeupRun" (loadRulesetConfig webextFlavor s).process
          = some (boolean true)
      ↔ ((∃ v, s.sessionTier.stored = some v ∧ validateConfig v = .ok true)
          ∨ (∃ v, s.localTier.stored = some v ∧ validateConfig v = .ok true)))
    ∧ ∃ b, lookupField "firstRun" (loadRulesetConfig webextFlavor s).process
          = some (boolean b)
        ∧ lookupField "wakeupRun" (loadRulesetConfig webextFlavor s).process
          = some (boolean (!b)) := by
  have hstored : ∀ t : Tier, (∃ v, t.stored = some v ∧ validateConfig v = .ok true)
      ↔ specValid (t.stored.getD undefined) = true := by
    intro t
    simp only [validateConfig_eq_specValid, Except.ok.injEq]
    cases h : t.stored with
    | none => simp [specValid, isObjectValue]
    | some v => simp
  rw [validateConfig_eq_specValid] at hl
  simp only [Except.ok.injEq] at hl
  rw [hstored, hstored]
  by_cases hfound : specValid (s.sessionTier.stored.getD undefined) = true
      ∨ specValid (s.localTier.stored.getD undefined) = true
  · obtain ⟨source, hread, hvalid⟩ : ∃ source, readConfigFromStorage s = .ok source
        ∧ specValid source = true := by
      by_cases h1 : specValid (s.sessionTier.stored.getD undefined) = true
      · exact ⟨_, readConfigFromStorage_session hs h1, h1⟩
      · have hlr : s.localTier.readFails = false := hl.resolve_left h1
        simp only [Bool.not_eq_true] at h1
        have h2 : specValid (s.localTier.stored.getD undefined) = true := by
          rcases hfound with h | h
          · rw [h1] at h
            cases h
          · exact h
        refine ⟨_, readConfigFromStorage_local hs hlr h1, ?_⟩
        simp [h2]
    obtain ⟨m, hm, -⟩ := migrateConfig_shape webextFlavor source
    rw [loadRulesetConfig_of_source hread (toBoolean_of_specValid hvalid) hm]
    simp [writeBothTiers, lookupField_setField, hfound]
  · have h1 : specValid (s.sessionTier.stored.getD undefined) = false := by
      simpa using fun h => hfound (Or.inl h)
    have h2 : specValid (s.localTier.stored.getD undefined) = false := by
      simpa using fun h => hfound (Or.inr h)
    have hlr : s.localTier.readFails = false := hl.resolve_left (by simp [h1])
    have hread : readConfigFromStorage s = .ok null := by
      rw [readConfigFromStorage_local hs hlr h1, h2]
      rfl
    rw [loadRulesetConfig_of_no_source hread]
    simp [writeBothTiers, lookupField_setField, h1, h2]

/-- Witness for claim C18: the session tier holds a valid configuration and the
local tier, which is never read, raises on every read. -/
theorem loadRulesetConfig_flags_witness :
    (lookupField "firstRun" (loadRulesetConfig (str "chromium") brokenLocalState).process
        = some (boolean true)
      ↔ ¬ ((∃ v, brokenLocalState.sessionTier.stored = some v ∧ validateConfig v = .ok true)
          ∨ (∃ v, brokenLocalState.localTier.stored = some v ∧ validateConfig v = .ok true)))
    ∧ (lookupField "wakeupRun" (loadRulesetConfig (str "chromium") brokenLocalState).process
          = some (boolean true)
      ↔ ((∃ v, brokenLocalState.sessionTier.stored = some v ∧ validateConfig v = .ok true)
          ∨ (∃ v, brokenLocalState.localTier.stored = some v ∧ validateConfig v = .ok true)))
    ∧ ∃ b, lookupField "firstRun" (loadRulesetConfig (str "chromium") brokenLocalState).process
          = some (boolean b)
        ∧ lookupField "wakeupRun" (loadRulesetConfig (str "chromium") brokenLocalState).process
          = some (boolean (!b)) :=
  loadRulesetConfig_flags (str "chromium") brokenLocalState rfl (Or.inl rfl)

/-! ## Save -/

theorem resetIfInvalid_eq (w : JSValue) (s : State) :
    resetIfInvalid w s
      = .ok (if specValid (obj s.rulesetConfig) = true then s
          else { s with rulesetConfig := copyDataProperties s.rulesetConfig (defaultConfig w) }) := by
  simp only [resetIfInvalid, validateConfig_eq_specValid, except_ok_bind,
    jsonClone_defaultConfig]
  cases specValid (obj s.rulesetConfig) <;> rfl

theorem specValid_copy_defaultConfig (w : JSValue) (inst : Fields) :
    specValid (obj (copyDataProperties inst (defaultConfig w))) = true := by
  have hne : ∀ k v, field (obj (defaultFields w)) k = v → v ≠ undefined →
      field (obj (copyDataProperties inst (obj (defaultFields w)))) k = v := by
    intro k v hk hv
    rw [field_copyDataProperties_of_ne_undefined (by rw [hk]; exact hv), hk]
  rw [defaultConfig_obj]
  refine specValid_of_parts rfl ?_ ?_ ?_ ?_ (specValid_defaultConfig w) ?_
  · rw [hne "version" (str "26") rfl (by simp)]
    rfl
  · rw [hne "enabledRulesets" (arr [str "default"]) rfl (by simp)]
    rfl
  · rw [hne "autoReload" (boolean true) rfl (by simp)]
    rfl
  · rw [hne "showBlockedCount" (boolean true) rfl (by simp)]
    rfl
  · rw [hne "features" _ rfl (by simp [field, getProp, defaultFields, defaultConfig_eq,
      rulesetConfig, objectFields, lookupField])]
    rfl

theorem internalSave_spec (s : State) :
    (internalSave s).2.rulesetConfig = s.rulesetConfig
    ∧ (internalSave s).2.process = s.process
    ∧ (s.sessionTier.writeFails = false →
        (internalSave s).2.sessionTier.stored = some (obj s.rulesetConfig))
    ∧ (s.localTier.writeFails = false →
        (internalSave s).2.localTier.stored = some (obj s.rulesetConfig)) :=
  ⟨rfl, rfl, fun h => Tier.stored_write h _, fun h => Tier.stored_write h _⟩

theorem saveRulesetConfig_eq (w : JSValue) (s : State) :
    saveRulesetConfig w s
      = (.ok (), (internalSave (if specValid (obj s.rulesetConfig) = true then s
          else { s with
            rulesetConfig := copyDataProperties s.rulesetConfig (defaultConfig w) })).2) := by
  simp only [saveRulesetConfig, resetIfInvalid_eq]
  split <;> simp_all

theorem lookupField_copy_defaultConfig (w : JSValue) (inst : Fields) (k : String) :
    lookupField k (copyDataProperties inst (defaultConfig w))
      = (lookupField k (defaultFields w)).orElse (fun _ => lookupField k inst) := by
  rw [defaultConfig_obj, lookupField_copyDataProperties]

/-- Claim C12, refuted as stated.  The instance of `corruptedState` fails
`validateConfig`; after `saveRulesetConfig` both tiers hold a value that still
carries the instance's field `leftover`, which the default configuration does
not have. -/
theorem saveRulesetConfig_keeps_extra_field :
    validateConfig (obj corruptedState.rulesetConfig) = .ok false
    ∧ ∃ v, (saveRulesetConfig (str "chromium") corruptedState).2.sessionTier.stored = some v
      ∧ (saveRulesetConfig (str "chromium") corruptedState).2.localTier.stored = some v
      ∧ field v "leftover" = str "stale"
      ∧ field (defaultConfig (str "chromium")) "leftover" = undefined :=
  ⟨rfl, _, rfl, rfl, rfl, rfl⟩

/-- Claim C12, amended.  For every in-memory instance that fails
`validateConfig`, a `saveRulesetConfig` call with no other save in flight and
succeeding writes ends with both tiers holding the instance after the default
configuration was assigned over it: the stored value passes `validateConfig`,
every field of the default configuration has the default's value, and a field
of the corrupted instance survives only under a key that the default
configuration does not have. -/
theorem saveRulesetConfig_resets_invalid (webextFlavor : JSValue) (s : State)
    (hinvalid : validateConfig (obj s.rulesetConfig) = .ok false)
    (hsw : s.sessionTier.writeFails = false) (hlw : s.localTier.writeFails = false) :
    ∃ inst, (saveRulesetConfig webextFlavor s).2.sessionTier.stored = some (obj inst)
      ∧ (saveRulesetConfig webextFlavor s).2.localTier.stored = some (obj inst)
      ∧ (saveRulesetConfig webextFlavor s).2.rulesetConfig = inst
      ∧ validateConfig (obj inst) = .ok true
      ∧ (∀ k v, lookupField k (defaultFields webextFlavor) = some v →
          lookupField k inst = some v)
      ∧ (∀ k, lookupField k (defaultFields webextFlavor) = none →
          lookupField k inst = lookupField k s.rulesetConfig) := by
  rw [validateConfig_eq_specValid] at hinvalid
  simp only [Except.ok.injEq] at hinvalid
  simp only [saveRulesetConfig_eq, hinvalid, Bool.false_eq_true, if_false]
  have hv := specValid_copy_defaultConfig webextFlavor s.rulesetConfig
  have hk := lookupField_copy_defaultConfig webextFlavor s.rulesetConfig
  generalize copyDataProperties s.rulesetConfig (defaultConfig webextFlavor) = inst at hv hk ⊢
  have hsave := internalSave_spec { s with rulesetConfig := inst }
  refine ⟨inst, hsave.2.2.1 hsw, hsave.2.2.2 hlw, hsave.1, ?_, ?_, ?_⟩
  · rw [validateConfig_eq_specValid, hv]
  · intro k v hd
    rw [hk, hd]
    rfl
  · intro k hd
    rw [hk, hd]
    rfl

/-- Witness for claim C12 (amended): the corrupted state. -/
theorem saveRulesetConfig_resets_invalid_witness :
    ∃ inst, (saveRulesetConfig (str "chromium") corruptedState).2.sessionTier.stored
          = some (obj inst)
      ∧ (saveRulesetConfig (str "chromium") corruptedState).2.localTier.stored
          = some (obj inst)
      ∧ (saveRulesetConfig (str "chromium") corruptedState).2.rulesetConfig = inst
      ∧ validateConfig (obj inst) = .ok true
      ∧ (∀ k v, lookupField k (defaultFields (str "chromium")) = some v →
          lookupField k inst = some v)
      ∧ (∀ k, lookupField k (defaultFields (str "chromium")) = none →
          lookupField k inst = lookupField k corruptedState.rulesetConfig) :=
  saveRulesetConfig_resets_invalid (str "chromium") corruptedState rfl rfl rfl

/-- Claim C13.  For every in-memory instance that passes `validateConfig`, a
`saveRulesetConfig` call with no other save in flight and succeeding writes
leaves the instance unchanged and ends with both tiers holding exactly that
instance under the key `'rulesetConfig'`. -/
theorem saveRulesetConfig_persists_valid (webextFlavor : JSValue) (s : State)
    (hvalid : validateConfig (obj s.rulesetConfig) = .ok true)
    (hsw : s.sessionTier.writeFails = false) (hlw : s.localTier.writeFails = false) :
    (saveRulesetConfig webextFlavor s).2.rulesetConfig = s.rulesetConfig
    ∧ lookupField "rulesetConfig" (saveRulesetConfig webextFlavor s).2.sessionTier.entries
        = some (obj s.rulesetConfig)
    ∧ lookupField "rulesetConfig" (saveRulesetConfig webextFlavor s).2.localTier.entries
        = some (obj s.rulesetConfig) := by
  rw [validateConfig_eq_specValid] at hvalid
  simp only [Except.ok.injEq] at hvalid
  simp only [saveRulesetConfig_eq, hvalid, if_true]
  exact ⟨rfl, (internalSave_spec s).2.2.1 hsw, (internalSave_spec s).2.2.2 hlw⟩

/-- Witness for claim C13: the state right after the module is evaluated. -/
theorem saveRulesetConfig_persists_valid_witness :
    (saveRulesetConfig (str "chromium")
        (initialState (str "chromium") emptyTier emptyTier)).2.rulesetConfig
      = (initialState (str "chromium") emptyTier emptyTier).rulesetConfig
    ∧ lookupField "rulesetConfig" (saveRulesetConfig (str "chromium")
        (initialState (str "chromium") emptyTier emptyTier)).2.sessionTier.entries
        = some (obj (initialState (str "chromium") emptyTier emptyTier).rulesetConfig)
    ∧ lookupField "rulesetConfig" (saveRulesetConfig (str "chromium")
        (initialState (str "chromium") emptyTier emptyTier)).2.localTier.entries
        = some (obj (initialState (str "chromium") emptyTier emptyTier).rulesetConfig) :=
  saveRulesetConfig_persists_valid (str "chromium") _ rfl rfl rfl

/-- A call of `saveRulesetConfig` made while no save is in flight: for every
in-memory instance and every pair of tiers, failing writes included, its
promise is fulfilled; the in-memory instance afterwards is the instance itself
when it passes `validateConfig` and the instance with the defaults assigned
over it otherwise, whatever the tiers are and whether or not their writes
fail. -/
theorem saveRulesetConfig_single_call_fulfilled (webextFlavor : JSValue) (s : State) :
    (saveRulesetConfig webextFlavor s).1 = .ok ()
    ∧ (saveRulesetConfig webextFlavor s).2.rulesetConfig
        = (match validateConfig (obj s.rulesetConfig) with
            | .ok true => s.rulesetConfig
            | _ => copyDataProperties s.rulesetConfig (defaultConfig webextFlavor))
    ∧ ∀ sessionTier localTier : Tier,
        (saveRulesetConfig webextFlavor
          { s with sessionTier := sessionTier, localTier := localTier }).2.rulesetConfig
        = (saveRulesetConfig webextFlavor s).2.rulesetConfig := by
  refine ⟨?_, ?_, ?_⟩
  · rw [saveRulesetConfig_eq]
  · rw [saveRulesetConfig_eq, validateConfig_eq_specValid]
    cases specValid (obj s.rulesetConfig) <;> rfl
  · intro sessionTier localTier
    rw [saveRulesetConfig_eq, saveRulesetConfig_eq]
    cases specValid (obj s.rulesetConfig) <;> rfl

/-! ## What is written to the tiers -/

theorem specValid_copy_of_specValid {m : Fields} (h : specValid (obj m) = true)
    (inst : Fields) : specValid (obj (copyDataProperties inst (obj m))) = true := by
  have hx := h
  simp only [specValid, Bool.and_eq_true] at hx
  obtain ⟨⟨⟨⟨⟨⟨⟨⟨⟨⟨-, x1⟩, x2⟩, x3⟩, x4⟩, x5⟩, -⟩, -⟩, -⟩, -⟩, -⟩ := hx
  have hcopy : ∀ k, (isStringValue (field (obj m) k) = true ∨ isArray (field (obj m) k) = true
      ∨ isBooleanValue (field (obj m) k) = true ∨ isObjectValue (field (obj m) k) = true)
      → field (obj (copyDataProperties inst (obj m))) k = field (obj m) k := by
    intro k hk
    apply field_copyDataProperties_of_ne_undefined
    intro hu
    rw [hu] at hk
    simp [isStringValue, isArray, isBooleanValue, isObjectValue] at hk
  refine specValid_of_parts rfl ?_ ?_ ?_ ?_ h ?_
  · rw [hcopy _ (Or.inl x1)]
    exact x1
  · rw [hcopy _ (Or.inr (Or.inl x2))]
    exact x2
  · rw [hcopy _ (Or.inr (Or.inr (Or.inl x3)))]
    exact x3
  · rw [hcopy _ (Or.inr (Or.inr (Or.inl x4)))]
    exact x4
  · exact hcopy _ (Or.inr (Or.inr (Or.inr x5)))

theorem field_objectAssign_of_ne_undefined {s : Fields} {k : String} (hk : k ≠ "__proto__")
    (h : field (obj s) k ≠ undefined) (t : Fields) :
    field (obj (objectAssign t (obj s))) k = field (obj s) k := by
  simp only [field_obj, lookupField_objectAssign] at h ⊢
  rw [if_neg (fun hc => hk hc.1)]
  cases hl : lookupField k s with
  | none => simp [hl] at h
  | some v => simp

theorem specValid_objectAssign_of_specValid {m : Fields} (h : specValid (obj m) = true)
    (inst : Fields) : specValid (obj (objectAssign inst (obj m))) = true := by
  have hx := h
  simp only [specValid, Bool.and_eq_true] at hx
  obtain ⟨⟨⟨⟨⟨⟨⟨⟨⟨⟨-, x1⟩, x2⟩, x3⟩, x4⟩, x5⟩, -⟩, -⟩, -⟩, -⟩, -⟩ := hx
  have hcopy : ∀ k, k ≠ "__proto__" →
      (isStringValue (field (obj m) k) = true ∨ isArray (field (obj m) k) = true
      ∨ isBooleanValue (field (obj m) k) = true ∨ isObjectValue (field (obj m) k) = true)
      → field (obj (objectAssign inst (obj m))) k = field (obj m) k := by
    intro k hne hk
    apply field_objectAssign_of_ne_undefined hne
    intro hu
    rw [hu] at hk
    simp [isStringValue, isArray, isBooleanValue, isObjectValue] at hk
  refine specValid_of_parts rfl ?_ ?_ ?_ ?_ h ?_
  · rw [hcopy _ (by decide) (Or.inl x1)]
    exact x1
  · rw [hcopy _ (by decide) (Or.inr (Or.inl x2))]
    exact x2
  · rw [hcopy _ (by decide) (Or.inr (Or.inr (Or.inl x3)))]
    exact x3
  · rw [hcopy _ (by decide) (Or.inr (Or.inr (Or.inl x4)))]
    exact x4
  · exact hcopy _ (by decide) (Or.inr (Or.inr (Or.inr x5)))

/-- Every value that `saveRulesetConfig` hands to the tiers passes
`validateConfig`: the instance is written after the reset. -/
theorem saveRulesetConfig_instance_valid (w : JSValue) (s : State) :
    validateConfig (obj (saveRulesetConfig w s).2.rulesetConfig) = .ok true := by
  rw [validateConfig_eq_specValid, saveRulesetConfig_eq]
  by_cases h : specValid (obj s.rulesetConfig) = true
  · simp only [h, if_true]
    exact congrArg Except.ok h
  · simp only [h, if_false]
    exact congrArg Except.ok (specValid_copy_defaultConfig w s.rulesetConfig)

/-- When a valid source is found, the value that `loadRulesetConfig` hands to the
tiers passes `validateConfig`. -/
theorem loadRulesetConfig_source_instance_valid (w : JSValue) (s : State) {source : JSValue}
    (hread : readConfigFromStorage s = .ok source) (hvalid : specValid source = true) :
    validateConfig (obj (loadRulesetConfig w s).rulesetConfig) = .ok true := by
  obtain ⟨m, hm, hmv⟩ := migrateConfig_preserves_specValid w source (Or.inl hvalid)
  rw [loadRulesetConfig_of_source hread (toBoolean_of_specValid hvalid) hm,
    validateConfig_eq_specValid]
  exact congrArg Except.ok (specValid_objectAssign_of_specValid hmv s.rulesetConfig)

/-- Claim C15, evaluated where it fails.  With both tiers empty and an in-memory
instance that fails `validateConfig`, the first-run branch of
`loadRulesetConfig` writes that instance to both tiers: the value written
fails `validateConfig`. -/
theorem loadRulesetConfig_first_run_persists_invalid :
    validateConfig (obj corruptedState.rulesetConfig) = .ok false
    ∧ ∃ v, (loadRulesetConfig (str "chromium") corruptedState).sessionTier.stored = some v
      ∧ (loadRulesetConfig (str "chromium") corruptedState).localTier.stored = some v
      ∧ validateConfig v = .ok false :=
  ⟨rfl, _, rfl, rfl, rfl⟩

/-- Claim C17, refuted as stated.  The instance of `staleFieldState` carries the
field `leftover`; the local tier holds a valid legacy configuration, which is
the source selected.  After `loadRulesetConfig` the instance still has the
field `leftover`, which the migrated source does not have. -/
theorem loadRulesetConfig_keeps_prior_field :
    readConfigFromStorage staleFieldState = .ok sampleLegacyConfig
    ∧ validateConfig sampleLegacyConfig = .ok true
    ∧ lookupField "leftover" (loadRulesetConfig (str "chromium") staleFieldState).rulesetConfig
        = some (str "stale")
    ∧ ∃ m, migrateConfig (str "chromium") sampleLegacyConfig = .ok (obj m)
      ∧ lookupField "leftover" m = none :=
  ⟨rfl, rfl, rfl, _, rfl, rfl⟩

/-- Claim C17, amended.  For every prior in-memory instance and every valid
source selected from the tiers, after `loadRulesetConfig` every field of the
migrated source other than one named `__proto__` is in the in-memory instance
with the migrated value, and a key that the migrated source lacks is in the
instance exactly as it was before the call.  A field of the migrated source
named `__proto__` becomes an own field of the instance only when the prior
instance already had an own field of that name: otherwise the write of
`Object.assign` goes through the inherited accessor and the instance gains no
own field. -/
theorem loadRulesetConfig_assigns_migrated (webextFlavor : JSValue) (s : State)
    (source : JSValue) (hread : readConfigFromStorage s = .ok source)
    (hvalid : validateConfig source = .ok true) :
    ∃ m, migrateConfig webextFlavor source = .ok (obj m)
      ∧ (∀ k v, k ≠ "__proto__" → lookupField k m = some v →
          lookupField k (loadRulesetConfig webextFlavor s).rulesetConfig = some v)
      ∧ (∀ k, lookupField k m = none →
          lookupField k (loadRulesetConfig webextFlavor s).rulesetConfig
            = lookupField k s.rulesetConfig)
      ∧ lookupField "__proto__" (loadRulesetConfig webextFlavor s).rulesetConfig
          = (match lookupField "__proto__" s.rulesetConfig with
              | none => none
              | some prior => some ((lookupField "__proto__" m).getD prior)) := by
  rw [validateConfig_eq_specValid] at hvalid
  simp only [Except.ok.injEq] at hvalid
  obtain ⟨m, hm, -⟩ := migrateConfig_shape webextFlavor source
  rw [loadRulesetConfig_of_source hread (toBoolean_of_specValid hvalid) hm]
  refine ⟨m, hm, ?_, ?_, ?_⟩
  · intro k v hne hk
    show lookupField k (objectAssign s.rulesetConfig (obj m)) = some v
    rw [lookupField_objectAssign, if_neg (fun hc => hne hc.1), hk]
    rfl
  · intro k hk
    show lookupField k (objectAssign s.rulesetConfig (obj m)) = _
    rw [lookupField_objectAssign, hk]
    by_cases hc : k = "__proto__" ∧ (lookupField k s.rulesetConfig).isNone = true
    · rw [if_pos hc]
      exact (Option.isNone_iff_eq_none.1 hc.2).symm
    · rw [if_neg hc]
      rfl
  · show lookupField "__proto__" (objectAssign s.rulesetConfig (obj m)) = _
    rw [lookupField_objectAssign]
    cases hp : lookupField "__proto__" s.rulesetConfig with
    | none => simp
    | some prior =>
      cases hq : lookupField "__proto__" m <;> simp

/-- Witness for claim C17 (amended): the state with a stale field. -/
theorem loadRulesetConfig_assigns_migrated_witness :
    ∃ m, migrateConfig (str "chromium") sampleLegacyConfig = .ok (obj m)
      ∧ (∀ k v, k ≠ "__proto__" → lookupField k m = some v →
          lookupField k (loadRulesetConfig (str "chromium") staleFieldState).rulesetConfig
            = some v)
      ∧ (∀ k, lookupField k m = none →
          lookupField k (loadRulesetConfig (str "chromium") staleFieldState).rulesetConfig
            = lookupField k staleFieldState.rulesetConfig)
      ∧ lookupField "__proto__" (loadRulesetConfig (str "chromium") staleFieldState).rulesetConfig
          = (match lookupField "__proto__" staleFieldState.rulesetConfig with
              | none => none
              | some prior => some ((lookupField "__proto__" m).getD prior)) :=
  loadRulesetConfig_assigns_migrated (str "chromium") staleFieldState sampleLegacyConfig rfl rfl

/-- A valid current-version source with an own field named `__proto__`, as
`JSON.parse` creates it: the migrated source has the field, the in-memory
instance has no own field of that name after `loadRulesetConfig`. -/
theorem loadRulesetConfig_proto_field_not_own :
    validateConfig (obj (setField (objectFields sampleCurrentConfig) "__proto__"
        (obj [("polluted", boolean true)]))) = .ok true
    ∧ (∃ m, migrateConfig (str "chromium")
          (obj (setField (objectFields sampleCurrentConfig) "__proto__"
            (obj [("polluted", boolean true)]))) = .ok (obj m)
        ∧ lookupField "__proto__" m = some (obj [("polluted", boolean true)]))
    ∧ lookupField "__proto__" (loadRulesetConfig (str "chromium")
          (initialState (str "chromium") emptyTier
            (tierHolding (obj (setField (objectFields sampleCurrentConfig) "__proto__"
              (obj [("polluted", boolean true)])))))).rulesetConfig = none :=
  ⟨rfl, ⟨_, rfl, rfl⟩, rfl⟩

/-- Claim C19.  The current-version merge is shallow: for every input of version
`'26'`, a `features` field of the input is the `features` field of the result
as it is, so a tunable that the input's `features.youtubeFadeSkip` omits is
absent from the result; the same holds for `siteOverrides`. -/
theorem migrateConfig_current_shallow (webextFlavor c : JSValue)
    (hversion : getProp c "version" = .ok (str "26")) :
    ∃ r, migrateConfig webextFlavor c = .ok r
      ∧ (∀ f, lookupField "features" (objectFields c) = some f →
          getProp r "features" = .ok f
          ∧ ∀ k, field (field f "youtubeFadeSkip") k = undefined →
              field (field (field r "features") "youtubeFadeSkip") k = undefined)
      ∧ (∀ o, lookupField "siteOverrides" (objectFields c) = some o →
          getProp r "siteOverrides" = .ok o) := by
  obtain ⟨fs, rfl, hv⟩ := getProp_version_eq_str hversion
  refine ⟨_, migrateConfig_current webextFlavor hv, ?_, ?_⟩
  · intro f hf
    simp only [objectFields] at hf
    have hfield : field (obj (setField (copyDataProperties (defaultFields webextFlavor) (obj fs))
        "version" (str CURRENT_CONFIG_VERSION))) "features" = f := by
      simp [field_obj, lookupField_setField, lookupField_copyDataProperties, hf,
        CURRENT_CONFIG_VERSION]
    refine ⟨?_, ?_⟩
    · rw [getProp_obj, hfield]
    · intro k hk
      rw [hfield]
      exact hk
  · intro o ho
    simp only [objectFields] at ho
    rw [getProp_obj]
    simp [field_obj, lookupField_setField, lookupField_copyDataProperties, ho,
      CURRENT_CONFIG_VERSION]

/-- Witness for claim C19: the sample current-version configuration passes
`validateConfig` and omits `maxSkipPerVideo`, which the default configuration
sets to `1000`. -/
theorem migrateConfig_current_shallow_witness :
    validateConfig sampleCurrentConfig = .ok true
    ∧ field (field (field sampleCurrentConfig "features") "youtubeFadeSkip") "maxSkipPerVideo"
        = undefined
    ∧ field (field (field (defaultConfig (str "chromium")) "features") "youtubeFadeSkip")
        "maxSkipPerVideo" = num 1000
    ∧ ∃ r, migrateConfig (str "chromium") sampleCurrentConfig = .ok r
      ∧ (∀ f, lookupField "features" (objectFields sampleCurrentConfig) = some f →
          getProp r "features" = .ok f
          ∧ ∀ k, field (field f "youtubeFadeSkip") k = undefined →
              field (field (field r "features") "youtubeFadeSkip") k = undefined)
      ∧ (∀ o, lookupField "siteOverrides" (objectFields sampleCurrentConfig) = some o →
          getProp r "siteOverrides" = .ok o) :=
  ⟨rfl, rfl, rfl, migrateConfig_current_shallow (str "chromium") sampleCurrentConfig rfl⟩

/-- Claim C20.  Migration preserves validity: for every candidate that passes
`validateConfig`, whatever its version string, `migrateConfig` returns a value
that passes `validateConfig`. -/
theorem migrateConfig_preserves_validity (webextFlavor c : JSValue)
    (hvalid : validateConfig c = .ok true) :
    ∃ r, migrateConfig webextFlavor c = .ok r ∧ validateConfig r = .ok true := by
  rw [validateConfig_eq_specValid] at hvalid
  simp only [Except.ok.injEq] at hvalid
  obtain ⟨r, hr, hv⟩ := migrateConfig_preserves_specValid webextFlavor c (Or.inl hvalid)
  exact ⟨obj r, hr, by rw [validateConfig_eq_specValid, hv]⟩

/-- Witness for claim C20: the sample legacy configuration. -/
theorem migrateConfig_preserves_validity_witness :
    ∃ r, migrateConfig (str "chromium") sampleLegacyConfig = .ok r
      ∧ validateConfig r = .ok true :=
  migrateConfig_preserves_validity (str "chromium") sampleLegacyConfig rfl

/-! ## Saves that overlap -/

/-- A single call with no save in flight, followed by its two writes settling,
ends in the state that `saveRulesetConfig` computes. -/
theorem SaveSystem.run_single_save (w : JSValue) (s : State) :
    ∃ sys, SaveSystem.run w (SaveSystem.idle s)
        [.save, .sessionWriteSettles 0, .localWriteSettles 0] = some sys
      ∧ sys.state = (saveRulesetConfig w s).2
      ∧ sys.saveInFlight = none ∧ sys.inFlight = [] ∧ sys.chained = [] := by
  have hreset := resetIfInvalid_eq w s
  rw [saveRulesetConfig_eq]
  generalize (if specValid (obj s.rulesetConfig) = true then s
    else { s with rulesetConfig := copyDataProperties s.rulesetConfig (defaultConfig w) }) = s1
    at hreset ⊢
  cases hl : s1.localTier.writeFails <;> cases hs : s1.sessionTier.writeFails <;>
    simp [SaveSystem.run, SaveSystem.step, SaveSystem.idle, hreset,
      startInternalSave, settlePromise, internalSave, Tier.write, hl, hs]

theorem resumeAfterAwait_eq (awaited : Except JSError Unit) :
    resumeAfterAwait awaited = .ok () := by
  cases awaited <;> rfl

theorem foldl_invariant {α β : Type} (P : β → Prop) (f : β → α → β)
    (hf : ∀ acc a, P acc → P (f acc a)) (l : List α) (init : β) (h : P init) :
    P (l.foldl f init) := by
  induction l generalizing init with
  | nil => exact h
  | cons a rest ih => exact ih _ (hf _ _ h)

/-- Settling a promise leaves the in-memory instance alone and completes calls
only as fulfilled. -/
theorem settlePromise_spec (fuel : Nat) (outcome : Except JSError Unit) (p : Nat)
    (sys : SaveSystem) :
    (settlePromise fuel outcome p sys).state = sys.state
    ∧ ((∀ c ∈ sys.returned, c.2 = .ok ()) →
        ∀ c ∈ (settlePromise fuel outcome p sys).returned, c.2 = .ok ()) := by
  induction fuel generalizing outcome p sys with
  | zero => exact ⟨rfl, fun h => h⟩
  | succ fuel ih =>
    have hbase : ∀ c ∈ sys.returned ++ [(p, resumeAfterAwait outcome)],
        (∀ c ∈ sys.returned, c.2 = .ok ()) → c.2 = .ok () := by
      intro c hc hall
      rcases List.mem_append.1 hc with h | h
      · exact hall c h
      · rw [List.mem_singleton.1 h]
        exact resumeAfterAwait_eq outcome
    cases outcome with
    | ok v =>
      simp only [settlePromise]
      refine foldl_invariant
        (fun acc : SaveSystem => acc.state = sys.state
          ∧ ((∀ c ∈ sys.returned, c.2 = .ok ()) → ∀ c ∈ acc.returned, c.2 = .ok ()))
        _ ?_ _ _ ⟨rfl, fun hall c hc => hbase c hc hall⟩
      intro acc a hacc
      exact hacc
    | error err =>
      simp only [settlePromise]
      refine foldl_invariant
        (fun acc : SaveSystem => acc.state = sys.state
          ∧ ((∀ c ∈ sys.returned, c.2 = .ok ()) → ∀ c ∈ acc.returned, c.2 = .ok ()))
        _ ?_ _ _ ⟨rfl, fun hall c hc => hbase c hc hall⟩
      intro acc a hacc
      exact ⟨(ih _ _ _).1.trans hacc.1, fun hall => (ih _ _ _).2 (hacc.2 hall)⟩

/-- One event completes calls only as fulfilled, and a write that settles does
not touch the in-memory instance. -/
theorem SaveSystem.step_spec (w : JSValue) (sys next : SaveSystem) (e : SaveEvent)
    (hstep : sys.step w e = some next) :
    ((∀ c ∈ sys.returned, c.2 = .ok ()) → ∀ c ∈ next.returned, c.2 = .ok ())
    ∧ ((∃ run, e = .sessionWriteSettles run ∨ e = .localWriteSettles run) →
        next.state.rulesetConfig = sys.state.rulesetConfig) := by
  cases e with
  | save =>
    refine ⟨?_, fun h => by obtain ⟨run, h | h⟩ := h <;> cases h⟩
    intro hall
    simp only [SaveSystem.step, resetIfInvalid_eq] at hstep
    cases hflight : sys.saveInFlight with
    | none =>
      simp only [hflight, Option.some.injEq] at hstep
      subst hstep
      exact hall
    | some q =>
      simp only [hflight, Option.some.injEq] at hstep
      subst hstep
      exact hall
  | assign k v =>
    refine ⟨?_, fun h => by obtain ⟨run, h | h⟩ := h <;> cases h⟩
    intro hall
    simp only [SaveSystem.step, Option.some.injEq] at hstep
    subst hstep
    exact hall
  | sessionWriteSettles run =>
    simp only [SaveSystem.step] at hstep
    split at hstep
    · cases hstep
    · simp only [Option.some.injEq] at hstep
      subst hstep
      exact ⟨fun hall => hall, fun _ => rfl⟩
  | localWriteSettles run =>
    simp only [SaveSystem.step] at hstep
    split at hstep
    · cases hstep
    · simp only [Option.some.injEq] at hstep
      subst hstep
      refine ⟨fun hall => (settlePromise_spec _ _ _ _).2 hall, fun _ => ?_⟩
      rw [(settlePromise_spec _ _ _ _).1]

theorem SaveSystem.run_returned (w : JSValue) (events : List SaveEvent) (sys fin : SaveSystem)
    (hrun : SaveSystem.run w sys events = some fin)
    (hall : ∀ c ∈ sys.returned, c.2 = .ok ()) : ∀ c ∈ fin.returned, c.2 = .ok () := by
  induction events generalizing sys with
  | nil =>
    simp only [SaveSystem.run, Option.some.injEq] at hrun
    subst hrun
    exact hall
  | cons e rest ih =>
    simp only [SaveSystem.run] at hrun
    cases hstep : sys.step w e with
    | none => simp [hstep] at hrun
    | some next =>
      simp only [hstep] at hrun
      exact ih next hrun ((SaveSystem.step_spec w sys next e hstep).1 hall)

theorem resetIfInvalid_twice (w : JSValue) (s : State) :
    ∃ s1, resetIfInvalid w s = .ok s1 ∧ resetIfInvalid w s1 = .ok s1
      ∧ s1.sessionTier = s.sessionTier ∧ s1.localTier = s.localTier
      ∧ s1.rulesetConfig = (saveRulesetConfig w s).2.rulesetConfig := by
  by_cases h : specValid (obj s.rulesetConfig) = true
  · refine ⟨s, ?_, ?_, rfl, rfl, ?_⟩
    · rw [resetIfInvalid_eq, if_pos h]
    · rw [resetIfInvalid_eq, if_pos h]
    · rw [saveRulesetConfig_eq, if_pos h]
      rfl
  · refine ⟨{ s with rulesetConfig := copyDataProperties s.rulesetConfig (defaultConfig w) },
      ?_, ?_, rfl, rfl, ?_⟩
    · rw [resetIfInvalid_eq, if_neg h]
    · rw [resetIfInvalid_eq, if_pos (specValid_copy_defaultConfig w s.rulesetConfig)]
    · rw [saveRulesetConfig_eq, if_neg h]
      rfl

/-- A save requested while an earlier one is pending, when the earlier local
write fails: the rejection skips the chained `internalSave` and reaches the
`await` of the second call, whose `catch` block handles it.  Both calls
complete as fulfilled and the in-memory instance is what the first call left. -/
theorem SaveSystem.run_chained_after_rejection (w : JSValue) (s : State)
    (hfail : s.localTier.writeFails = true) :
    ∃ fin, SaveSystem.run w (SaveSystem.idle s) [.save, .save, .localWriteSettles 0] = some fin
      ∧ fin.returned = [(0, .ok ()), (1, .ok ())]
      ∧ fin.chained = []
      ∧ fin.state.rulesetConfig = (saveRulesetConfig w s).2.rulesetConfig
      ∧ fin.state.localTier = s.localTier := by
  obtain ⟨s1, h1, h2, -, hl, hrc⟩ := resetIfInvalid_twice w s
  rw [← hrc, ← hl]
  rw [← hl] at hfail
  simp [SaveSystem.run, SaveSystem.step, SaveSystem.idle, h1, h2, startInternalSave,
    settlePromise, Tier.write, hfail, resumeAfterAwait, saveCatch]

/-- A save requested while an earlier one is pending, when the local writes
succeed: the chained `internalSave` runs after the first local write, and both
calls complete as fulfilled. -/
theorem SaveSystem.run_chained_after_success (w : JSValue) (s : State)
    (hok : s.localTier.writeFails = false) :
    ∃ fin, SaveSystem.run w (SaveSystem.idle s)
        [.save, .save, .localWriteSettles 0, .localWriteSettles 1] = some fin
      ∧ fin.returned = [(0, .ok ()), (1, .ok ())]
      ∧ fin.chained = []
      ∧ fin.state.rulesetConfig = (saveRulesetConfig w s).2.rulesetConfig := by
  obtain ⟨s1, h1, h2, -, hl, hrc⟩ := resetIfInvalid_twice w s
  rw [← hrc]
  rw [← hl] at hok
  simp [SaveSystem.run, SaveSystem.step, SaveSystem.idle, h1, h2, startInternalSave,
    settlePromise, Tier.write, hok, resumeAfterAwait]

/-- Claim C14.  `saveRulesetConfig` never raises to its caller, whatever the
in-memory instance, whatever the tiers and whether or not their writes fail,
and whether or not other saves are pending: along every sequence of calls,
assignments and settling writes, from any state of the module, every call
that completes completes as fulfilled; a write that settles, failed or not,
leaves the in-memory instance as it is.  A call made while no save is in
flight is fulfilled and leaves the instance itself when valid and the instance
with the defaults assigned over it otherwise, independently of the tiers.  A
call chained on an earlier save is fulfilled too, both when the earlier local
write fails, so that the rejection reaches its `await`, and when it
succeeds. -/
theorem saveRulesetConfig_never_rejects (webextFlavor : JSValue) (sys : SaveSystem)
    (s : State) :
    (∀ events fin, SaveSystem.run webextFlavor sys events = some fin →
        (∀ c ∈ sys.returned, c.2 = .ok ()) → ∀ c ∈ fin.returned, c.2 = .ok ())
    ∧ (∀ run next,
        (sys.step webextFlavor (.sessionWriteSettles run) = some next
          ∨ sys.step webextFlavor (.localWriteSettles run) = some next) →
        next.state.rulesetConfig = sys.state.rulesetConfig)
    ∧ ((saveRulesetConfig webextFlavor s).1 = .ok ()
      ∧ (saveRulesetConfig webextFlavor s).2.rulesetConfig
          = (match validateConfig (obj s.rulesetConfig) with
              | .ok true => s.rulesetConfig
              | _ => copyDataProperties s.rulesetConfig (defaultConfig webextFlavor))
      ∧ ∀ sessionTier localTier : Tier,
          (saveRulesetConfig webextFlavor
            { s with sessionTier := sessionTier, localTier := localTier }).2.rulesetConfig
          = (saveRulesetConfig webextFlavor s).2.rulesetConfig)
    ∧ (s.localTier.writeFails = true →
        ∃ fin, SaveSystem.run webextFlavor (SaveSystem.idle s)
            [.save, .save, .localWriteSettles 0] = some fin
          ∧ fin.returned = [(0, .ok ()), (1, .ok ())]
          ∧ fin.state.rulesetConfig = (saveRulesetConfig webextFlavor s).2.rulesetConfig)
    ∧ (s.localTier.writeFails = false →
        ∃ fin, SaveSystem.run webextFlavor (SaveSystem.idle s)
            [.save, .save, .localWriteSettles 0, .localWriteSettles 1] = some fin
          ∧ fin.returned = [(0, .ok ()), (1, .ok ())]
          ∧ fin.state.rulesetConfig
              = (saveRulesetConfig webextFlavor s).2.rulesetConfig) := by
  refine ⟨fun events fin hrun hall => SaveSystem.run_returned webextFlavor events sys fin hrun hall,
    ?_, saveRulesetConfig_single_call_fulfilled webextFlavor s, ?_, ?_⟩
  · intro run next h
    rcases h with h | h
    · exact (SaveSystem.step_spec webextFlavor sys next _ h).2 ⟨run, Or.inl rfl⟩
    · exact (SaveSystem.step_spec webextFlavor sys next _ h).2 ⟨run, Or.inr rfl⟩
  · intro hfail
    obtain ⟨fin, hrun, hret, -, hrc, -⟩ :=
      SaveSystem.run_chained_after_rejection webextFlavor s hfail
    exact ⟨fin, hrun, hret, hrc⟩
  · intro hok
    obtain ⟨fin, hrun, hret, -, hrc⟩ :=
      SaveSystem.run_chained_after_success webextFlavor s hok
    exact ⟨fin, hrun, hret, hrc⟩

/-- Witness for claim C14: an invalid instance, a local tier whose writes fail,
and a second call made while the first is pending. -/
theorem saveRulesetConfig_never_rejects_witness :
    ∃ fin, SaveSystem.run (str "chromium") (SaveSystem.idle failingWriteState)
        [.save, .save, .localWriteSettles 0] = some fin
      ∧ fin.returned = [(0, .ok ()), (1, .ok ())]
      ∧ fin.state.rulesetConfig
          = (saveRulesetConfig (str "chromium") failingWriteState).2.rulesetConfig :=
  (saveRulesetConfig_never_rejects (str "chromium") (SaveSystem.idle failingWriteState)
    failingWriteState).2.2.2.1 rfl

/-- Claim C16, evaluated where it fails.  Three calls of `saveRulesetConfig`,
each issued while an earlier save is pending.  When the first save settles its
`finally` block sets `saveInFlight` to `null` although the second call has
chained its `internalSave` on it; the second save's writes are then in flight
while `saveInFlight` is `null`, so the third call starts its writes at once:
two write pairs are in flight together.  If the instance is assigned to in
between and the third pair settles before the second, every save has settled
and both tiers hold the older snapshot, not the final in-memory instance. -/
theorem saveRulesetConfig_chain_broken :
    (∃ sys, SaveSystem.run (str "chromium")
          (SaveSystem.idle (initialState (str "chromium") emptyTier emptyTier))
          [.save, .sessionWriteSettles 0, .save, .localWriteSettles 0] = some sys
      ∧ sys.writesInFlight = [(1, .sessionTier), (1, .localTier)]
      ∧ sys.saveInFlight = none
      ∧ ∃ next, sys.step (str "chromium") .save = some next
        ∧ next.writesInFlight
            = [(1, .sessionTier), (1, .localTier), (2, .sessionTier), (2, .localTier)])
    ∧ ∃ fin, SaveSystem.run (str "chromium")
          (SaveSystem.idle (initialState (str "chromium") emptyTier emptyTier))
          [.save, .sessionWriteSettles 0, .save, .localWriteSettles 0,
           .assign "enabled" (boolean false), .save,
           .sessionWriteSettles 2, .localWriteSettles 2,
           .sessionWriteSettles 1, .localWriteSettles 1] = some fin
      ∧ fin.writesInFlight = [] ∧ fin.chained.length = 0
      ∧ ∃ v, fin.state.sessionTier.stored = some v ∧ fin.state.localTier.stored = some v
        ∧ field v "enabled" = boolean true
        ∧ field (obj fin.state.rulesetConfig) "enabled" = boolean false :=
  ⟨⟨_, rfl, rfl, rfl, _, rfl, rfl⟩, _, rfl, rfl, rfl, _, rfl, rfl, rfl, rfl⟩

end UBOConfig
